import Mathlib

/-!
Verification development for the yascad modeling language
(lexer `lang/frontend/src/tokenize.rs`, parser `lang/frontend/src/parse.rs`,
interpreter `lang/backend/src/interpreter.rs`, geometry table
`lang/backend/src/geometry_table.rs`, built-in catalog
`lang/backend/src/builtin/{modules,operators}.rs`, object model
`lang/backend/src/object.rs`, pipeline `lang/lib/src/lib.rs`).

Numbers (`f64`) are modeled as rationals; the external geometry kernel
(`manifold-rs`) is opaque per the specification, so `Manifold` and
`CrossSection` are modeled as free term algebras over the kernel's
constructors.  Rust panics (`panic!`, `todo!`, `unwrap` on `None`) are
modeled explicitly as a `crash` outcome, distinct from runtime errors.

The source snapshot mixes two revisions: `tokenize.rs` defines only a
subset of the token kinds that `parse.rs` consumes, and `interpreter.rs`
matches only a subset of the node kinds that `parse.rs` produces.  The
embedding uses the union of the `TokenKind`/`NodeKind` variants, with each
function translated from the file that defines it; behavior a file does
not define (a Rust non-exhaustive match) is modeled as a `crash`.
-/

namespace Yascad

/-- Source span: byte-range into the input (`InputSourceSpan` in
`frontend/src/lib.rs`, minus the `Rc<InputSource>` back-pointer, which is
the same for every span of one run).  `tokenize` stores the character
index from `chars().enumerate()` as `start` and the Rust `String::len`
byte count as `length`. -/
structure Span where
  start : Nat
  length : Nat
deriving DecidableEq, Repr

/-- Token kinds.  `tokenize.rs` (old revision) defines only
`Identifier..Star`; the keyword and comparison kinds from `Colon` down are
required by `parse.rs` but are never produced by the lexer in this
snapshot. -/
inductive TokenKind where
  | Identifier (text : List Char)
  | Number (text : List Char)
  | KwIt
  | KwOperator
  | LParen
  | RParen
  | LBrace
  | RBrace
  | LBracket
  | RBracket
  | Comma
  | Semicolon
  | Equals
  | Dot
  | Plus
  | Minus
  | ForwardSlash
  | Star
  | Colon
  | KwModule
  | KwTrue
  | KwFalse
  | KwFor
  | KwIf
  | KwElse
  | DoubleEquals
  | LAngle
  | LAngleEquals
  | RAngle
  | RAngleEquals
deriving DecidableEq, Repr

structure Token where
  kind : TokenKind
  span : Span
deriving DecidableEq, Repr

inductive TokenizeErrorKind where
  | UnexpectedChar (c : Char)
deriving DecidableEq, Repr

structure TokenizeError where
  kind : TokenizeErrorKind
  span : Span
deriving DecidableEq, Repr

/-- Rust `char::is_digit(10)`. -/
def rustIsDigit (c : Char) : Bool := c.isDigit

/-- Rust `char::is_alphabetic()`.  Modeled by the ASCII letter predicate;
Rust additionally accepts non-ASCII Unicode letters, which no theorem in
this file evaluates (the positive claims are restricted to ASCII sources
and the counterexample characters are non-letters in both readings). -/
def rustIsAlphabetic (c : Char) : Bool := c.isAlpha

/-- Rust `char::is_alphanumeric()` (same ASCII caveat as above). -/
def rustIsAlphanumeric (c : Char) : Bool := c.isAlpha || c.isDigit

/-- Rust `char::is_whitespace()` (same ASCII caveat as above). -/
def rustIsWhitespace (c : Char) : Bool := c.isWhitespace

/-- UTF-8 byte count of one character. -/
def charUtf8Size (c : Char) : Nat :=
  if c.toNat < 0x80 then 1
  else if c.toNat < 0x800 then 2
  else if c.toNat < 0x10000 then 3
  else 4

/-- Byte length of a character list under UTF-8, i.e. Rust `String::len`. -/
def utf8Len (cs : List Char) : Nat := (cs.map charUtf8Size).sum

/-- The inner scanning loop of the number branch of `tokenize`:
consume digits, and at most one `.` (only when no decimal point was seen
yet).  Returns the consumed characters and the remainder. -/
def takeNumberChars : List Char → Bool → List Char × List Char
  | [], _ => ([], [])
  | c :: rest, hadDot =>
    if rustIsDigit c then
      let r := takeNumberChars rest hadDot
      (c :: r.1, r.2)
    else if !hadDot && c == '.' then
      let r := takeNumberChars rest true
      ('.' :: r.1, r.2)
    else
      ([], c :: rest)

/-- The inner scanning loop of the identifier branch of `tokenize`:
consume alphanumerics and underscores. -/
def takeIdentChars : List Char → List Char × List Char
  | [] => ([], [])
  | c :: rest =>
    if rustIsAlphanumeric c || c == '_' then
      let r := takeIdentChars rest
      (c :: r.1, r.2)
    else
      ([], c :: rest)

/-- The line-comment loop of `tokenize`: consume characters through the
next newline (or to the end).  Returns how many characters were consumed
and the remainder. -/
def skipCommentChars : List Char → Nat × List Char
  | [] => (0, [])
  | c :: rest =>
    if c == '\n' then
      (1, rest)
    else
      let r := skipCommentChars rest
      (r.1 + 1, r.2)

/-- `lookup_keyword` from `tokenize.rs`: in this snapshot only `it` and
`operator` are recognized. -/
def lookupKeyword (name : List Char) : Option TokenKind :=
  if name = "it".data then some TokenKind.KwIt
  else if name = "operator".data then some TokenKind.KwOperator
  else none

theorem takeNumberChars_rest_length_le (cs : List Char) (b : Bool) :
    (takeNumberChars cs b).2.length ≤ cs.length := by
  induction cs generalizing b with
  | nil => simp [takeNumberChars]
  | cons c rest ih =>
    simp only [takeNumberChars]
    split
    · exact (ih _).trans (Nat.le_succ _)
    · split
      · exact (ih _).trans (Nat.le_succ _)
      · simp

theorem takeIdentChars_rest_length_le (cs : List Char) :
    (takeIdentChars cs).2.length ≤ cs.length := by
  induction cs with
  | nil => simp [takeIdentChars]
  | cons c rest ih =>
    simp only [takeIdentChars]
    split
    · exact ih.trans (Nat.le_succ _)
    · simp

theorem skipCommentChars_rest_length_le (cs : List Char) :
    (skipCommentChars cs).2.length ≤ cs.length := by
  induction cs with
  | nil => simp [skipCommentChars]
  | cons c rest ih =>
    simp only [skipCommentChars]
    split
    · simp
    · exact ih.trans (Nat.le_succ _)

/-- The main loop of `tokenize` (`tokenize.rs`, lines 110-230), over the
remaining character list, carrying the `enumerate` index of the next
character.  Branches appear in the source's match order: digits,
letters/underscore, line comment, punctuation, whitespace, error. -/
def tokenizeAux : List Char → Nat → List Token × List TokenizeError
  | [], _ => ([], [])
  | c :: rest, i =>
    if rustIsDigit c then
      let r := takeNumberChars rest false
      let buffer := c :: r.1
      let rec0 := tokenizeAux r.2 (i + buffer.length)
      (⟨TokenKind.Number buffer, ⟨i, utf8Len buffer⟩⟩ :: rec0.1, rec0.2)
    else if rustIsAlphabetic c || c == '_' then
      let r := takeIdentChars rest
      let buffer := c :: r.1
      let kind := match lookupKeyword buffer with
        | some kw => kw
        | none => TokenKind.Identifier buffer
      let rec0 := tokenizeAux r.2 (i + buffer.length)
      (⟨kind, ⟨i, utf8Len buffer⟩⟩ :: rec0.1, rec0.2)
    else if c == '/' && rest.head? == some '/' then
      let r := skipCommentChars rest
      tokenizeAux r.2 (i + 1 + r.1)
    else if c == '(' then
      let rec0 := tokenizeAux rest (i + 1)
      (⟨TokenKind.LParen, ⟨i, 1⟩⟩ :: rec0.1, rec0.2)
    else if c == ')' then
      let rec0 := tokenizeAux rest (i + 1)
      (⟨TokenKind.RParen, ⟨i, 1⟩⟩ :: rec0.1, rec0.2)
    else if c == '\x7b' then
      let rec0 := tokenizeAux rest (i + 1)
      (⟨TokenKind.LBrace, ⟨i, 1⟩⟩ :: rec0.1, rec0.2)
    else if c == '\x7d' then
      let rec0 := tokenizeAux rest (i + 1)
      (⟨TokenKind.RBrace, ⟨i, 1⟩⟩ :: rec0.1, rec0.2)
    else if c == '[' then
      let rec0 := tokenizeAux rest (i + 1)
      (⟨TokenKind.LBracket, ⟨i, 1⟩⟩ :: rec0.1, rec0.2)
    else if c == ']' then
      let rec0 := tokenizeAux rest (i + 1)
      (⟨TokenKind.RBracket, ⟨i, 1⟩⟩ :: rec0.1, rec0.2)
    else if c == ',' then
      let rec0 := tokenizeAux rest (i + 1)
      (⟨TokenKind.Comma, ⟨i, 1⟩⟩ :: rec0.1, rec0.2)
    else if c == ';' then
      let rec0 := tokenizeAux rest (i + 1)
      (⟨TokenKind.Semicolon, ⟨i, 1⟩⟩ :: rec0.1, rec0.2)
    else if c == '=' then
      let rec0 := tokenizeAux rest (i + 1)
      (⟨TokenKind.Equals, ⟨i, 1⟩⟩ :: rec0.1, rec0.2)
    else if c == '.' then
      let rec0 := tokenizeAux rest (i + 1)
      (⟨TokenKind.Dot, ⟨i, 1⟩⟩ :: rec0.1, rec0.2)
    else if c == '+' then
      let rec0 := tokenizeAux rest (i + 1)
      (⟨TokenKind.Plus, ⟨i, 1⟩⟩ :: rec0.1, rec0.2)
    else if c == '-' then
      let rec0 := tokenizeAux rest (i + 1)
      (⟨TokenKind.Minus, ⟨i, 1⟩⟩ :: rec0.1, rec0.2)
    else if c == '/' then
      let rec0 := tokenizeAux rest (i + 1)
      (⟨TokenKind.ForwardSlash, ⟨i, 1⟩⟩ :: rec0.1, rec0.2)
    else if c == '*' then
      let rec0 := tokenizeAux rest (i + 1)
      (⟨TokenKind.Star, ⟨i, 1⟩⟩ :: rec0.1, rec0.2)
    else if rustIsWhitespace c then
      tokenizeAux rest (i + 1)
    else
      let rec0 := tokenizeAux rest (i + 1)
      (rec0.1, ⟨TokenizeErrorKind.UnexpectedChar c, ⟨i, 1⟩⟩ :: rec0.2)
termination_by cs _ => cs.length
decreasing_by
  all_goals simp_wf
  · exact Nat.lt_succ_of_le (takeNumberChars_rest_length_le _ _)
  · exact Nat.lt_succ_of_le (takeIdentChars_rest_length_le _)
  · exact Nat.lt_succ_of_le (skipCommentChars_rest_length_le _)

/-- `tokenize` from `tokenize.rs`: token stream plus accumulated
diagnostics for one source. -/
def tokenize (source : List Char) : List Token × List TokenizeError :=
  tokenizeAux source 0

/-- The textual form of a token: identifier/number text, keyword lexeme,
or punctuation characters. -/
def tokenTextChars : TokenKind → List Char
  | TokenKind.Identifier text => text
  | TokenKind.Number text => text
  | TokenKind.KwIt => "it".data
  | TokenKind.KwOperator => "operator".data
  | TokenKind.LParen => "(".data
  | TokenKind.RParen => ")".data
  | TokenKind.LBrace => "\x7b".data
  | TokenKind.RBrace => "\x7d".data
  | TokenKind.LBracket => "[".data
  | TokenKind.RBracket => "]".data
  | TokenKind.Comma => ",".data
  | TokenKind.Semicolon => ";".data
  | TokenKind.Equals => "=".data
  | TokenKind.Dot => ".".data
  | TokenKind.Plus => "+".data
  | TokenKind.Minus => "-".data
  | TokenKind.ForwardSlash => "/".data
  | TokenKind.Star => "*".data
  | TokenKind.Colon => ":".data
  | TokenKind.KwModule => "module".data
  | TokenKind.KwTrue => "true".data
  | TokenKind.KwFalse => "false".data
  | TokenKind.KwFor => "for".data
  | TokenKind.KwIf => "if".data
  | TokenKind.KwElse => "else".data
  | TokenKind.DoubleEquals => "==".data
  | TokenKind.LAngle => "<".data
  | TokenKind.LAngleEquals => "<=".data
  | TokenKind.RAngle => ">".data
  | TokenKind.RAngleEquals => ">=".data

/-- UTF-8 encoding of one character, as byte values. -/
def utf8Bytes (c : Char) : List Nat :=
  let n := c.toNat
  if n < 0x80 then
    [n]
  else if n < 0x800 then
    [0xC0 + n / 0x40, 0x80 + n % 0x40]
  else if n < 0x10000 then
    [0xE0 + n / 0x1000, 0x80 + (n / 0x40) % 0x40, 0x80 + n % 0x40]
  else
    [0xF0 + n / 0x40000, 0x80 + (n / 0x1000) % 0x40,
      0x80 + (n / 0x40) % 0x40, 0x80 + n % 0x40]

/-- The UTF-8 bytes of a source, i.e. what a Rust `String` holds. -/
def toBytes (cs : List Char) : List Nat :=
  (cs.map utf8Bytes).foldr (· ++ ·) []

/-- Slicing a source by a byte offset and byte length, i.e. Rust
`&source[start..start+len]` on the underlying bytes. -/
def byteSlice (source : List Char) (start len : Nat) : List Nat :=
  ((toBytes source).drop start).take len

/-- `InputSourceSpan::end`: last index covered by the span. -/
def Span.endIdx (s : Span) : Nat := s.start + s.length - 1

/-- `InputSourceSpan::union_with`: the span covering this span and all the
given ones (they always share one source in a run). -/
def Span.unionWith (s : Span) (others : List Span) : Span :=
  let start := (others.map Span.start).foldl Nat.min s.start
  let stop := (others.map Span.endIdx).foldl Nat.max s.endIdx
  ⟨start, stop - start + 1⟩

/-- Binary operators (`parse.rs`).  The interpreter in this snapshot only
matches the four arithmetic variants. -/
inductive BinaryOperator where
  | Add | Subtract | Multiply | Divide
  | Equals | LessThan | LessThanOrEquals | GreaterThan | GreaterThanOrEquals
deriving DecidableEq, Repr

/- AST (`parse.rs`): nodes with spans, call-site argument lists split
into positional and named, and definition-site parameter lists split into
required and optional.  Numbers are `f64` in the source, modeled as `ℚ`. -/
mutual

inductive Node where
  | mk (kind : NodeKind) (span : Span)

inductive NodeKind where
  | Identifier (name : List Char)
  | NumberLiteral (value : ℚ)
  | BooleanLiteral (value : Bool)
  | VectorLiteral (items : List Node)
  | VectorRangeLiteral (first last : Node)
  | ItReference
  | OperatorApplication (name : List Char) (arguments : Arguments)
      (children : List Node)
  | Call (name : List Char) (arguments : Arguments)
  | Binding (name : List Char) (value : Node)
  | FieldAccess (value : Node) (field : List Char)
  | BinaryOperation (left right : Node) (op : BinaryOperator)
  | UnaryNegate (value : Node)
  | OperatorDefinition (name : List Char) (parameters : Parameters)
      (body : List Node)
  | ModuleDefinition (name : List Char) (parameters : Parameters)
      (body : List Node)
  | ForLoop (loopVariable : List Char) (loopSource : Node) (body : List Node)
  | IfConditional (condition : Node) (trueBody : List Node)
      (falseBody : Option (List Node))

inductive Arguments where
  | mk (positional : List Node) (named : List (List Char × Node))

inductive Parameters where
  | mk (required : List (List Char)) (optional : List (List Char × Node))

end

def Node.kind : Node → NodeKind
  | .mk k _ => k

def Node.span : Node → Span
  | .mk _ s => s

def Arguments.positional : Arguments → List Node
  | .mk p _ => p

def Arguments.named : Arguments → List (List Char × Node)
  | .mk _ n => n

def Parameters.required : Parameters → List (List Char)
  | .mk r _ => r

def Parameters.optional : Parameters → List (List Char × Node)
  | .mk _ o => o

inductive StatementTerminator where
  | NeedsSemicolon
  | Braced
deriving DecidableEq, Repr

inductive ParseErrorKind where
  | UnexpectedToken (kind : TokenKind)
  | UnexpectedEnd
  | InvalidNumber
  | RequiredParameterAfterOptionalParameter (name : List Char)
  | PositionalArgumentAfterNamedArgument
deriving DecidableEq, Repr

structure ParseError where
  kind : ParseErrorKind
  span : Span
deriving DecidableEq, Repr

/-- Parser state: the `Peekable` token iterator, the accumulated error
vector, and the source byte length (for `eof_span`). -/
structure ParserState where
  tokens : List Token
  errors : List ParseError
  srcLen : Nat
deriving Repr

def ParserState.eofSpan (ps : ParserState) : Span := ⟨ps.srcLen, 0⟩

def ParserState.pushError (ps : ParserState) (k : ParseErrorKind) (sp : Span) :
    ParserState :=
  { ps with errors := ps.errors ++ [⟨k, sp⟩] }

def ParserState.peek (ps : ParserState) : Option Token := ps.tokens.head?

def ParserState.next (ps : ParserState) : Option Token × ParserState :=
  match ps.tokens with
  | [] => (none, ps)
  | t :: rest => (some t, { ps with tokens := rest })

/-- `Parser::expect`: `some (some t)` when the next token matches,
`some none` when a token was consumed but did not match (error pushed),
`none` at end of input (error pushed). -/
def pExpect (kind : TokenKind) (ps : ParserState) :
    Option (Option Token) × ParserState :=
  match ps.next with
  | (some t, ps) =>
    if t.kind = kind then (some (some t), ps)
    else (some none, ps.pushError (.UnexpectedToken t.kind) t.span)
  | (none, ps) => (none, ps.pushError .UnexpectedEnd ps.eofSpan)

/-- `Parser::expect_identifier`. -/
def pExpectIdentifier (ps : ParserState) :
    Option (List Char × Span) × ParserState :=
  match ps.next with
  | (some ⟨TokenKind.Identifier id, span⟩, ps) => (some (id, span), ps)
  | (some t, ps) => (none, ps.pushError (.UnexpectedToken t.kind) t.span)
  | (none, ps) => (none, ps.pushError .UnexpectedEnd ps.eofSpan)

/-- Rust `str::parse::<f64>` restricted to the strings the lexer can
produce (digits with at most one interior dot).  Values are exact
rationals; the concrete programs in this file use only numbers whose
`f64` parse is exact. -/
def parseDecimal (cs : List Char) : Option ℚ :=
  let intPart := cs.takeWhile (fun c => c ≠ '.')
  let fracPart := (cs.dropWhile (fun c => c ≠ '.')).drop 1
  if intPart.isEmpty || !intPart.all Char.isDigit || !fracPart.all Char.isDigit then
    none
  else
    some (digitsVal intPart + (digitsVal fracPart) / (10 ^ fracPart.length))
where
  digitsVal (ds : List Char) : ℚ :=
    (ds.foldl (fun a c => a * 10 + (c.toNat - 48)) 0 : Nat)

def comparisonOpOfToken : TokenKind → Option BinaryOperator
  | .DoubleEquals => some .Equals
  | .LAngle => some .LessThan
  | .LAngleEquals => some .LessThanOrEquals
  | .RAngle => some .GreaterThan
  | .RAngleEquals => some .GreaterThanOrEquals
  | _ => none

def isIdentifierKind : TokenKind → Bool
  | .Identifier _ => true
  | _ => false

/- The recursive-descent parser (`parse.rs`).  Each function mirrors the
Rust method of the same name; `Option` results and error pushes follow the
source's recovery discipline (`?` on the outer `Option` of `expect`
continues after a wrong-token error; `??` requires the matching token).
Rust's recursion is bounded by forward progress through the token
iterator; the embedding makes this explicit with a fuel argument,
decremented on every call, which only affects how much fuel a run needs.
`unwrap` calls that the source guards with a preceding `peek` are modeled
by the (unreachable) fallback of the corresponding `match`. -/
mutual

def parseStatements : Nat → ParserState → List Node × ParserState
  | 0, ps => ([], ps)
  | fuel + 1, ps =>
    match ps.peek with
    | none => ([], ps)
    | some _ =>
      match parseStatement fuel ps with
      | (some stmt, ps) =>
        let r := parseStatements fuel ps
        (stmt :: r.1, r.2)
      | (none, ps) => parseStatements fuel ps

def parseStatement : Nat → ParserState → Option Node × ParserState
  | 0, ps => (none, ps)
  | fuel + 1, ps =>
    if ps.peek.any (fun t => t.kind = .KwOperator) then
      match parseDefinition fuel ps with
      | (none, ps) => (none, ps)
      | (some (name, parameters, body, span), ps) =>
        (some (.mk (.OperatorDefinition name parameters body) span), ps)
    else if ps.peek.any (fun t => t.kind = .KwModule) then
      match parseDefinition fuel ps with
      | (none, ps) => (none, ps)
      | (some (name, parameters, body, span), ps) =>
        (some (.mk (.ModuleDefinition name parameters body) span), ps)
    else if ps.peek.any (fun t => t.kind = .KwFor) then
      match ps.next with
      | (none, ps) => (none, ps)
      | (some startTok, ps) =>
        match pExpect .LParen ps with
        | (none, ps) => (none, ps)
        | (some _, ps) =>
          match ps.next with
          | (none, ps) => (none, ps.pushError .UnexpectedEnd ps.eofSpan)
          | (some nameTok, ps) =>
            match nameTok.kind with
            | .Identifier loopVariable =>
              match pExpect .Equals ps with
              | (none, ps) => (none, ps)
              | (some _, ps) =>
                match parseExpression fuel ps with
                | (none, ps) => (none, ps)
                | (some (loopSource, _), ps) =>
                  match pExpect .RParen ps with
                  | (none, ps) => (none, ps)
                  | (some _, ps) =>
                    match parseBracedStatementList fuel ps with
                    | (none, ps) => (none, ps)
                    | (some body, ps) =>
                      let span := startTok.span.unionWith (body.map Node.span)
                      (some (.mk (.ForLoop loopVariable loopSource body) span), ps)
            | k =>
              (none, ps.pushError (.UnexpectedToken k) nameTok.span)
    else if ps.peek.any (fun t => t.kind = .KwIf) then
      parseIfStatement fuel ps
    else
      match parseExpression fuel ps with
      | (none, ps) => (none, ps)
      | (some (expr0, terminator0), ps) =>
        let step : Option (Node × StatementTerminator) × ParserState :=
          match expr0.kind with
          | .Identifier id =>
            if ps.peek.any (fun t => t.kind = .Equals) then
              let ps := ps.next.2
              match parseExpression fuel ps with
              | (none, ps) => (none, ps)
              | (some (value, valueTerminator), ps) =>
                let bindingSpan := expr0.span.unionWith [value.span]
                (some (.mk (.Binding id value) bindingSpan, valueTerminator), ps)
            else (some (expr0, terminator0), ps)
          | _ => (some (expr0, terminator0), ps)
        match step with
        | (none, ps) => (none, ps)
        | (some (expr, terminator), ps) =>
          match terminator with
          | .NeedsSemicolon =>
            match pExpect .Semicolon ps with
            | (none, ps) => (none, ps)
            | (some _, ps) => (some expr, ps)
          | .Braced =>
            if ps.peek.any (fun t => t.kind = .Semicolon) then
              (some expr, ps.next.2)
            else
              (some expr, ps)

def parseExpression : Nat → ParserState →
    Option (Node × StatementTerminator) × ParserState
  | 0, ps => (none, ps)
  | fuel + 1, ps => parseComparisonExpression fuel ps

def parseComparisonExpression : Nat → ParserState →
    Option (Node × StatementTerminator) × ParserState
  | 0, ps => (none, ps)
  | fuel + 1, ps =>
    match parseAddSubExpression fuel ps with
    | (none, ps) => (none, ps)
    | (some (left, terminator), ps) => parseComparisonLoop fuel left terminator ps

def parseComparisonLoop : Nat → Node → StatementTerminator → ParserState →
    Option (Node × StatementTerminator) × ParserState
  | 0, _, _, ps => (none, ps)
  | fuel + 1, left, terminator, ps =>
    match ps.peek with
    | none => (some (left, terminator), ps)
    | some t =>
      match comparisonOpOfToken t.kind with
      | none => (some (left, terminator), ps)
      | some op =>
        let ps := ps.next.2
        match parseAddSubExpression fuel ps with
        | (none, ps) => (none, ps)
        | (some (right, rightTerminator), ps) =>
          let span := left.span.unionWith [right.span]
          parseComparisonLoop fuel (.mk (.BinaryOperation left right op) span)
            rightTerminator ps

def parseAddSubExpression : Nat → ParserState →
    Option (Node × StatementTerminator) × ParserState
  | 0, ps => (none, ps)
  | fuel + 1, ps =>
    match parseMulDivExpression fuel ps with
    | (none, ps) => (none, ps)
    | (some (left, terminator), ps) => parseAddSubLoop fuel left terminator ps

def parseAddSubLoop : Nat → Node → StatementTerminator → ParserState →
    Option (Node × StatementTerminator) × ParserState
  | 0, _, _, ps => (none, ps)
  | fuel + 1, left, terminator, ps =>
    if ps.peek.any (fun t => t.kind = .Plus ∨ t.kind = .Minus) then
      match ps.next with
      | (none, ps) => (none, ps)
      | (some t, ps) =>
        let op : BinaryOperator := if t.kind = .Plus then .Add else .Subtract
        match parseMulDivExpression fuel ps with
        | (none, ps) => (none, ps)
        | (some (right, rightTerminator), ps) =>
          let span := left.span.unionWith [right.span]
          parseAddSubLoop fuel (.mk (.BinaryOperation left right op) span)
            rightTerminator ps
    else
      (some (left, terminator), ps)

def parseMulDivExpression : Nat → ParserState →
    Option (Node × StatementTerminator) × ParserState
  | 0, ps => (none, ps)
  | fuel + 1, ps =>
    match parseBottomExpression fuel ps with
    | (none, ps) => (none, ps)
    | (some (left, terminator), ps) => parseMulDivLoop fuel left terminator ps

def parseMulDivLoop : Nat → Node → StatementTerminator → ParserState →
    Option (Node × StatementTerminator) × ParserState
  | 0, _, _, ps => (none, ps)
  | fuel + 1, left, terminator, ps =>
    if ps.peek.any (fun t => t.kind = .Star ∨ t.kind = .ForwardSlash) then
      match ps.next with
      | (none, ps) => (none, ps)
      | (some t, ps) =>
        let op : BinaryOperator := if t.kind = .Star then .Multiply else .Divide
        match parseBottomExpression fuel ps with
        | (none, ps) => (none, ps)
        | (some (right, rightTerminator), ps) =>
          let span := left.span.unionWith [right.span]
          parseMulDivLoop fuel (.mk (.BinaryOperation left right op) span)
            rightTerminator ps
    else
      (some (left, terminator), ps)

def parseBottomExpression : Nat → ParserState →
    Option (Node × StatementTerminator) × ParserState
  | 0, ps => (none, ps)
  | fuel + 1, ps =>
    match ps.next with
    | (none, ps) => (none, ps)
    | (some tok, ps) =>
      match tok.kind with
      | .Identifier id =>
        if ps.peek.any (fun t => t.kind = .LParen) then
          match parseArgumentList fuel ps with
          | (none, ps) => (none, ps)
          | (some (arguments, argumentsSpan), ps) =>
            let callSpan := tok.span.unionWith [argumentsSpan]
            if ps.peek.any (fun t => isIdentifierKind t.kind) then
              match parseExpression fuel ps with
              | (none, ps) => (none, ps)
              | (some (child, operatorTerminator), ps) =>
                (some (.mk (.OperatorApplication id arguments [child]) callSpan,
                  operatorTerminator), ps)
            else if ps.peek.any (fun t => t.kind = .LBrace) then
              match parseBracedStatementList fuel ps with
              | (none, ps) => (none, ps)
              | (some children, ps) =>
                (some (.mk (.OperatorApplication id arguments children) callSpan,
                  .Braced), ps)
            else
              let r := parseAnyFieldAccessSuffixes fuel
                (.mk (.Call id arguments) callSpan) ps
              (some (r.1, .NeedsSemicolon), r.2)
        else
          let r := parseAnyFieldAccessSuffixes fuel
            (.mk (.Identifier id) tok.span) ps
          (some (r.1, .NeedsSemicolon), r.2)
      | .Number num =>
        match parseDecimal num with
        | some value =>
          (some (.mk (.NumberLiteral value) tok.span, .NeedsSemicolon), ps)
        | none =>
          (some (.mk (.NumberLiteral 0) tok.span, .NeedsSemicolon),
            ps.pushError .InvalidNumber tok.span)
      | .LBracket =>
        match parseExpression fuel ps with
        | (none, ps) => (none, ps)
        | (some (firstItem, _), ps) =>
          match ps.peek with
          | some peeked =>
            match peeked.kind with
            | .RBracket =>
              -- the source peeks but does not consume the bracket here
              let vectorSpan := tok.span.unionWith [peeked.span]
              (some (.mk (.VectorLiteral [firstItem]) vectorSpan,
                .NeedsSemicolon), ps)
            | .Comma =>
              let ps := ps.next.2
              match parseBracketedExpressionList fuel .RBracket ps with
              | (none, ps) => (none, ps)
              | (some (items, endSpan), ps) =>
                let vectorSpan := tok.span.unionWith [endSpan]
                (some (.mk (.VectorLiteral (firstItem :: items)) vectorSpan,
                  .NeedsSemicolon), ps)
            | .Colon =>
              let ps := ps.next.2
              match parseExpression fuel ps with
              | (none, ps) => (none, ps)
              | (some (endItem, _), ps) =>
                match pExpect .RBracket ps with
                | (none, ps) => (none, ps)
                | (some _, ps) =>
                  let vectorSpan := tok.span.unionWith [endItem.span]
                  (some (.mk (.VectorRangeLiteral firstItem endItem) vectorSpan,
                    .NeedsSemicolon), ps)
            | _ =>
              -- the source reports the outer `[` token kind at the peeked span
              (none, ps.pushError (.UnexpectedToken .LBracket) peeked.span)
          | none =>
            (none, ps.pushError .UnexpectedEnd ps.eofSpan)
      | .KwIt =>
        let r := parseAnyFieldAccessSuffixes fuel (.mk .ItReference tok.span) ps
        (some (r.1, .NeedsSemicolon), r.2)
      | .Minus =>
        match parseBottomExpression fuel ps with
        | (none, ps) => (none, ps)
        | (some (value, terminator), ps) =>
          let span := tok.span.unionWith [value.span]
          (some (.mk (.UnaryNegate value) span, terminator), ps)
      | .LParen =>
        match parseExpression fuel ps with
        | (none, ps) => (none, ps)
        | (some (node, _), ps) =>
          match pExpect .RParen ps with
          | (none, ps) => (none, ps)
          | (some _, ps) => (some (node, .NeedsSemicolon), ps)
      | .KwTrue =>
        (some (.mk (.BooleanLiteral true) tok.span, .NeedsSemicolon), ps)
      | .KwFalse =>
        (some (.mk (.BooleanLiteral false) tok.span, .NeedsSemicolon), ps)
      | k =>
        (none, ps.pushError (.UnexpectedToken k) tok.span)

def parseDefinition : Nat → ParserState →
    Option ((List Char) × Parameters × List Node × Span) × ParserState
  | 0, ps => (none, ps)
  | fuel + 1, ps =>
    match ps.next with
    | (none, ps) => (none, ps)
    | (some startTok, ps) =>
      match pExpectIdentifier ps with
      | (none, ps) => (none, ps)
      | (some (name, _), ps) =>
        match pExpect .LParen ps with
        | (none, ps) => (none, ps)
        | (some _, ps) =>
          match parseBracketedList fuel .RParen
              (fun ps =>
                match pExpectIdentifier ps with
                | (none, ps) => (none, ps)
                | (some (pname, _), ps) =>
                  if ps.peek.any (fun t => t.kind = .Equals) then
                    let ps := ps.next.2
                    match parseExpression fuel ps with
                    | (none, ps) => (none, ps)
                    | (some (default, _), ps) => (some (pname, some default), ps)
                  else
                    (some (pname, none), ps)) ps with
          | (none, ps) => (none, ps)
          | (some (parsedParameters, _), ps) =>
            let r := parsedParameters.foldl
              (fun (acc : Bool × Parameters × ParserState) entry =>
                let (encounteredOptional, params, ps) := acc
                match entry.2 with
                | some default =>
                  (true,
                    .mk params.required (params.optional ++ [(entry.1, default)]),
                    ps)
                | none =>
                  let ps :=
                    if encounteredOptional then
                      ps.pushError
                        (.RequiredParameterAfterOptionalParameter entry.1)
                        startTok.span
                    else ps
                  (encounteredOptional,
                    .mk (params.required ++ [entry.1]) params.optional, ps))
              (false, .mk [] [], ps)
            let parameters := r.2.1
            let ps := r.2.2
            match parseBracedStatementList fuel ps with
            | (none, ps) => (none, ps)
            | (some body, ps) =>
              let span := startTok.span.unionWith (body.map Node.span)
              (some (name, parameters, body, span), ps)

def parseArgumentList : Nat → ParserState →
    Option (Arguments × Span) × ParserState
  | 0, ps => (none, ps)
  | fuel + 1, ps =>
    match pExpect .LParen ps with
    | (none, ps) => (none, ps)
    | (some _, ps) =>
      match parseBracketedList fuel .RParen
          (fun ps =>
            match parseExpression fuel ps with
            | (none, ps) => (none, ps)
            | (some (expr, _), ps) =>
              match expr.kind with
              | .Identifier name =>
                if ps.peek.any (fun t => t.kind = .Equals) then
                  let ps := ps.next.2
                  match parseExpression fuel ps with
                  | (none, ps) => (none, ps)
                  | (some (inner, _), ps) => (some (inner, some name), ps)
                else
                  (some (expr, none), ps)
              | _ => (some (expr, none), ps)) ps with
      | (none, ps) => (none, ps)
      | (some (parsedArguments, span), ps) =>
        let r := parsedArguments.foldl
          (fun (acc : Bool × Arguments × ParserState) entry =>
            let (encounteredNamed, args, ps) := acc
            match entry.2 with
            | some name =>
              (true, .mk args.positional (args.named ++ [(name, entry.1)]), ps)
            | none =>
              let ps :=
                if encounteredNamed then
                  ps.pushError .PositionalArgumentAfterNamedArgument span
                else ps
              (encounteredNamed, .mk (args.positional ++ [entry.1]) args.named, ps))
          (false, .mk [] [], ps)
        (some (r.2.1, span), r.2.2)

def parseAnyFieldAccessSuffixes : Nat → Node → ParserState → Node × ParserState
  | 0, value, ps => (value, ps)
  | fuel + 1, value, ps =>
    if ps.peek.any (fun t => t.kind = .Dot) then
      match ps.next with
      | (none, ps) => (value, ps)
      | (some dotTok, ps) =>
        match pExpectIdentifier ps with
        | (none, ps) => (value, ps)
        | (some (field, nameSpan), ps) =>
          parseAnyFieldAccessSuffixes fuel
            (.mk (.FieldAccess value field) (dotTok.span.unionWith [nameSpan])) ps
    else
      (value, ps)

def parseBracketedList : {α : Type} → Nat → TokenKind →
    (ParserState → Option α × ParserState) → ParserState →
    Option (List α × Span) × ParserState
  | _, 0, _, _, ps => (none, ps)
  | _, fuel + 1, endKind, parseFn, ps =>
    match ps.peek with
    | none => (none, ps)
    | some startTok =>
      -- the source's empty-list special case tests `RParen` regardless of `end`
      if ps.peek.any (fun t => t.kind = .RParen) then
        match ps.next with
        | (none, ps) => (none, ps)
        | (some t, ps) => (some ([], startTok.span.unionWith [t.span]), ps)
      else
        parseBracketedListLoop fuel endKind parseFn startTok.span [] ps

def parseBracketedListLoop : {α : Type} → Nat → TokenKind →
    (ParserState → Option α × ParserState) → Span → List α → ParserState →
    Option (List α × Span) × ParserState
  | _, 0, _, _, _, _, ps => (none, ps)
  | _, fuel + 1, endKind, parseFn, startSpan, items, ps =>
    let (itemOpt, ps) := parseFn ps
    let items := match itemOpt with
      | some item => items ++ [item]
      | none => items
    match ps.next with
    | (none, ps) =>
      (some (items, startSpan), ps.pushError .UnexpectedEnd ps.eofSpan)
    | (some separator, ps) =>
      if separator.kind = .Comma then
        if ps.peek.any (fun t => t.kind = endKind) then
          match ps.next with
          | (none, ps) => (some (items, startSpan), ps)
          | (some t, ps) => (some (items, startSpan.unionWith [t.span]), ps)
        else
          parseBracketedListLoop fuel endKind parseFn startSpan items ps
      else if separator.kind = endKind then
        (some (items, startSpan.unionWith [separator.span]), ps)
      else
        parseBracketedListLoop fuel endKind parseFn startSpan items
          (ps.pushError (.UnexpectedToken separator.kind) separator.span)

def parseBracketedExpressionList : Nat → TokenKind → ParserState →
    Option (List Node × Span) × ParserState
  | 0, _, ps => (none, ps)
  | fuel + 1, endKind, ps =>
    parseBracketedList fuel endKind
      (fun ps =>
        match parseExpression fuel ps with
        | (none, ps) => (none, ps)
        | (some (n, _), ps) => (some n, ps)) ps

def parseBracedStatementList : Nat → ParserState →
    Option (List Node) × ParserState
  | 0, ps => (none, ps)
  | fuel + 1, ps =>
    match pExpect .LBrace ps with
    | (none, ps) => (none, ps)
    | (some _, ps) => parseBracedStatementListLoop fuel [] ps

def parseBracedStatementListLoop : Nat → List Node → ParserState →
    Option (List Node) × ParserState
  | 0, stmts, ps => (some stmts, ps)
  | fuel + 1, stmts, ps =>
    if ps.peek.any (fun t => t.kind = .RBrace) then
      (some stmts, ps.next.2)
    else
      match ps.peek with
      | none => (some stmts, ps.pushError .UnexpectedEnd ps.eofSpan)
      | some _ =>
        match parseStatement fuel ps with
        | (some stmt, ps) => parseBracedStatementListLoop fuel (stmts ++ [stmt]) ps
        | (none, ps) => parseBracedStatementListLoop fuel stmts ps

def parseIfStatement : Nat → ParserState → Option Node × ParserState
  | 0, ps => (none, ps)
  | fuel + 1, ps =>
    match pExpect .KwIf ps with
    | (none, ps) => (none, ps)
    | (some none, ps) => (none, ps)
    | (some (some startTok), ps) =>
      match pExpect .LParen ps with
      | (none, ps) => (none, ps)
      | (some none, ps) => (none, ps)
      | (some (some _), ps) =>
        match parseExpression fuel ps with
        | (none, ps) => (none, ps)
        | (some (condition, _), ps) =>
          match pExpect .RParen ps with
          | (none, ps) => (none, ps)
          | (some none, ps) => (none, ps)
          | (some (some bodyEndTok), ps) =>
            match parseBracedStatementList fuel ps with
            | (none, ps) => (none, ps)
            | (some trueBody, ps) =>
              let elseStep : Option (Option (List Node)) × ParserState :=
                if ps.peek.any (fun t => t.kind = .KwElse) then
                  let ps := ps.next.2
                  match ps.peek with
                  | some peeked =>
                    match peeked.kind with
                    | .KwIf =>
                      match parseIfStatement fuel ps with
                      | (none, ps) => (none, ps)
                      | (some n, ps) => (some (some [n]), ps)
                    | .LBrace =>
                      match parseBracedStatementList fuel ps with
                      | (none, ps) => (none, ps)
                      | (some body, ps) => (some (some body), ps)
                    | k =>
                      (some none,
                        ps.pushError (.UnexpectedToken k) peeked.span)
                  | none =>
                    (some none, ps.pushError .UnexpectedEnd ps.eofSpan)
                else
                  (some none, ps)
              match elseStep with
              | (none, ps) => (none, ps)
              | (some falseBody, ps) =>
                let span := startTok.span.unionWith [bodyEndTok.span]
                (some (.mk (.IfConditional condition trueBody falseBody) span), ps)

end

/- The external geometry kernel (`manifold-rs`) is out of scope per the
specification, so 2D cross-sections and 3D manifolds are modeled as free
term algebras over the kernel operations the interpreter invokes.
`CrossSection::polygons()` is modeled as the cross-section term itself. -/

inductive CrossSection where
  | square (x y : ℚ) (center : Bool)
  | circle (r : ℚ) (segments : Int)
  | translate (c : CrossSection) (x y : ℚ)
  | rotate (c : CrossSection) (angle : ℚ)
  | scale (c : CrossSection) (x y : ℚ)
  | mirror (c : CrossSection) (x y : ℚ)
  | union (a b : CrossSection)
  | difference (a b : CrossSection)
deriving DecidableEq, Repr

inductive Manifold where
  | new
  | cube (x y z : ℚ) (center : Bool)
  | cylinder (r h : ℚ) (segments : Int) (center : Bool)
  | translate (m : Manifold) (x y z : ℚ)
  | rotate (m : Manifold) (x y z : ℚ)
  | scale (m : Manifold) (x y z : ℚ)
  | mirror (m : Manifold) (x y z : ℚ)
  | union (a b : Manifold)
  | difference (a b : Manifold)
  | extrude (polygons : CrossSection) (h : ℚ)
deriving DecidableEq, Repr

/-- Runtime error kinds (`backend/src/error.rs`).  `DuplicateBinding` is
raised by `interpreter.rs` and `AssertionError` by `builtin/modules.rs`;
neither variant appears in `error.rs` in this snapshot (the revisions are
mixed), so the union is modeled.  `RangeInclusive<usize>` payloads are
modeled as a low/high pair. -/
inductive RuntimeErrorKind where
  | IncorrectType (expected actual : String)
  | UndefinedIdentifier (name : List Char)
  | InvalidIdentifier (id : List Char) (kind : String)
  | UndefinedField (ty : String) (field : List Char)
  | IncorrectArity (expectedLo expectedHi actual : Nat)
  | DuplicateNamedArgument (name : List Char)
  | UndefinedNamedArgument (name : List Char)
  | MissingNamedArguments (names : List (List Char))
  | NamedArgumentRepeatsPositionalArgument (name : List Char)
  | IncorrectVectorLength (expectedLo expectedHi actual : Nat)
  | MixedGeometryDisposition
  | MixedGeometryDimensions
  | DuplicateName (name : List Char)
  | ItReferenceInvalid
  | ItReferenceUnsupportedNotOneChild
  | ChildrenExpected
  | ChildrenInvalid
  | FlippedRange
  | Requires2DGeometry
  | DuplicateBinding (name : List Char)
  | AssertionError (msg : String)
deriving DecidableEq, Repr

structure RuntimeError where
  kind : RuntimeErrorKind
  span : Span
deriving DecidableEq, Repr

/-- Non-`Result` ways an evaluation can end: a Rust panic (`panic!`,
`todo!`, `expect`/`unwrap` failure), a query answered by the opaque
external geometry kernel (bounding boxes — outside the modeled fragment),
or exhaustion of the embedding's fuel (never reached by any theorem
below).  All are kept distinct from runtime errors. -/
inductive Failure where
  | runtime (e : RuntimeError)
  | crash (msg : String)
  | kernel
  | outOfFuel
deriving DecidableEq, Repr

/-- Runtime values (`backend/src/object.rs`).  Geometry table indices are
naturals. -/
inductive Object where
  | Null
  | Number (n : ℚ)
  | Boolean (b : Bool)
  | Manifold (idx : Nat)
  | CrossSection (idx : Nat)
  | Vector (items : List Object)

def Object.describeType : Object → String
  | .Null => "null"
  | .Number _ => "number"
  | .Boolean _ => "boolean"
  | .Manifold _ => "3D manifold"
  | .CrossSection _ => "2D cross-section"
  | .Vector _ => "vector"

def Object.asNumber (o : Object) (span : Span) : Except RuntimeError ℚ :=
  match o with
  | .Number n => .ok n
  | _ => .error ⟨.IncorrectType "number" o.describeType, span⟩

def Object.asBoolean (o : Object) (span : Span) : Except RuntimeError Bool :=
  match o with
  | .Boolean b => .ok b
  | _ => .error ⟨.IncorrectType "boolean" o.describeType, span⟩

def Object.intoManifold (o : Object) (span : Span) : Except RuntimeError Nat :=
  match o with
  | .Manifold idx => .ok idx
  | _ => .error ⟨.IncorrectType "3D manifold" o.describeType, span⟩

def Object.intoCrossSection (o : Object) (span : Span) : Except RuntimeError Nat :=
  match o with
  | .CrossSection idx => .ok idx
  | _ => .error ⟨.IncorrectType "2D cross-section" o.describeType, span⟩

def Object.intoVector (o : Object) (span : Span) : Except RuntimeError (List Object) :=
  match o with
  | .Vector v => .ok v
  | _ => .error ⟨.IncorrectType "vector" o.describeType, span⟩

/-- `Object::into_2d_vector`: a vector of exactly two numbers. -/
def Object.into2dVector (o : Object) (span : Span) : Except RuntimeError (ℚ × ℚ) := do
  let vector ← o.intoVector span
  match vector with
  | [xo, yo] => do
    let x ← xo.asNumber span
    let y ← yo.asNumber span
    .ok (x, y)
  | _ => .error ⟨.IncorrectVectorLength 2 2 vector.length, span⟩

/-- `Object::into_3d_vector`: a vector of two or three numbers; a missing
third component defaults to 0. -/
def Object.into3dVector (o : Object) (span : Span) :
    Except RuntimeError (ℚ × ℚ × ℚ) := do
  let vector ← o.intoVector span
  match vector with
  | [xo, yo] => do
    let x ← xo.asNumber span
    let y ← yo.asNumber span
    .ok (x, y, 0)
  | [xo, yo, zo] => do
    let x ← xo.asNumber span
    let y ← yo.asNumber span
    let z ← zo.asNumber span
    .ok (x, y, z)
  | _ => .error ⟨.IncorrectVectorLength 2 3 vector.length, span⟩

inductive GeometryDisposition where
  | Physical
  | Virtual
deriving DecidableEq, Repr

/-- `GeometryDisposition::flatten`: all-Physical or all-Virtual, else a
mixed-disposition error. -/
def GeometryDisposition.flatten (dispositions : List GeometryDisposition)
    (span : Span) : Except RuntimeError GeometryDisposition :=
  if dispositions.all (· = .Physical) then .ok .Physical
  else if dispositions.all (· = .Virtual) then .ok .Virtual
  else .error ⟨.MixedGeometryDisposition, span⟩

inductive GeometryTableEntry where
  | Manifold (m : Manifold)
  | CrossSection (c : CrossSection)
deriving DecidableEq, Repr

/-- The geometry arena (`geometry_table.rs`): handle-keyed entries with a
monotonically increasing next handle.  The `HashMap` is modeled as an
association list in insertion order, which also determinizes
`iter_geometry` (the source's `HashMap::values` order is unspecified). -/
structure GeometryTable where
  table : List (Nat × GeometryTableEntry × GeometryDisposition)
  nextIndex : Nat
deriving DecidableEq, Repr

def GeometryTable.new : GeometryTable := ⟨[], 1⟩

def GeometryTable.add (t : GeometryTable) (geometry : GeometryTableEntry)
    (disposition : GeometryDisposition) : Nat × GeometryTable :=
  (t.nextIndex, ⟨t.table ++ [(t.nextIndex, geometry, disposition)], t.nextIndex + 1⟩)

def GeometryTable.lookup (t : GeometryTable) (index : Nat) :
    Option (GeometryTableEntry × GeometryDisposition) :=
  (t.table.find? (fun e => e.1 = index)).map (fun e => e.2)

def GeometryTable.eraseIdx (t : GeometryTable) (index : Nat) : GeometryTable :=
  ⟨t.table.filter (fun e => e.1 ≠ index), t.nextIndex⟩

/-- `GeometryTable::remove`: panics when the handle is unknown. -/
def GeometryTable.remove (t : GeometryTable) (index : Nat) :
    Except Failure ((GeometryTableEntry × GeometryDisposition) × GeometryTable) :=
  match t.lookup index with
  | some ed => .ok (ed, t.eraseIdx index)
  | none => .error (.crash "geometry not in table")

/-- `GeometryTable::get`: panics when the handle is unknown. -/
def GeometryTable.get (t : GeometryTable) (index : Nat) :
    Except Failure GeometryTableEntry :=
  match t.lookup index with
  | some ed => .ok ed.1
  | none => .error (.crash "geometry not in table")

/-- `GeometryTable::get_disposition`: panics when the handle is unknown. -/
def GeometryTable.getDisposition (t : GeometryTable) (index : Nat) :
    Except Failure GeometryDisposition :=
  match t.lookup index with
  | some ed => .ok ed.2
  | none => .error (.crash "geometry not in table")

/-- `GeometryTable::map_manifold`: remove, transform (panicking on a
non-manifold entry), re-add preserving disposition. -/
def GeometryTable.mapManifold (t : GeometryTable) (index : Nat)
    (func : Manifold → Manifold) : Except Failure (Nat × GeometryTable) := do
  let (ed, t) ← t.remove index
  match ed.1 with
  | .Manifold m => .ok (t.add (.Manifold (func m)) ed.2)
  | .CrossSection _ => .error (.crash "map_manifold called on non-manifold geometry")

/-- Remove every listed handle, collecting removed entries in order
(the `unzip` of the removal loop). -/
def GeometryTable.removeAll (t : GeometryTable) (indices : List Nat) :
    Except Failure (List (GeometryTableEntry × GeometryDisposition) × GeometryTable) :=
  match indices with
  | [] => .ok ([], t)
  | i :: rest => do
    let (ed, t) ← t.remove i
    let (eds, t) ← t.removeAll rest
    .ok (ed :: eds, t)

/-- The union fold shared by `union_child_geometry` and
`remove_many_into_union`: the first entry fixes the dimension; a later
entry of the other dimension is a `MixedGeometryDimensions` error. -/
def unionEntries (first : GeometryTableEntry) (rest : List GeometryTableEntry)
    (span : Span) : Except RuntimeError GeometryTableEntry :=
  match first with
  | .Manifold firstManifold =>
    (rest.foldlM (fun result entry =>
      (match entry with
      | .Manifold m => .ok (result.union m)
      | .CrossSection _ =>
        .error ⟨.MixedGeometryDimensions, span⟩ : Except RuntimeError Manifold))
      firstManifold).map .Manifold
  | .CrossSection firstCrossSection =>
    (rest.foldlM (fun result entry =>
      (match entry with
      | .CrossSection c => .ok (result.union c)
      | .Manifold _ =>
        .error ⟨.MixedGeometryDimensions, span⟩ : Except RuntimeError CrossSection))
      firstCrossSection).map .CrossSection

/-- `Interpreter::union_child_geometry` (`interpreter.rs`, lines
497-534): a single child is removed and returned as-is; otherwise all
children are removed, dispositions flattened, and the entries unioned —
where `split_first().unwrap()` on an empty list is a panic. -/
def unionChildGeometry (children : List Nat) (span : Span) (t : GeometryTable) :
    Except Failure ((GeometryTableEntry × GeometryDisposition) × GeometryTable) :=
  match children with
  | [onlyChild] => t.remove onlyChild
  | _ => do
    let (allPairs, t) ← t.removeAll children
    let disposition ← (GeometryDisposition.flatten (allPairs.map (fun p => p.2)) span).mapError .runtime
    match allPairs.map (fun p => p.1) with
    | [] => .error (.crash "split_first on empty entry list")
    | first :: rest => do
      let entry ← (unionEntries first rest span).mapError .runtime
      .ok ((entry, disposition), t)

/-- `GeometryTable::remove_many_into_union` (`geometry_table.rs`, lines
134-171): textually the same algorithm as `union_child_geometry`,
including the `split_first().unwrap()` panic on an empty list. -/
def GeometryTable.removeManyIntoUnion (t : GeometryTable) (indices : List Nat)
    (span : Span) :
    Except Failure ((GeometryTableEntry × GeometryDisposition) × GeometryTable) :=
  match indices with
  | [onlyIndex] => t.remove onlyIndex
  | _ => do
    let (allPairs, t) ← t.removeAll indices
    let disposition ← (GeometryDisposition.flatten (allPairs.map (fun p => p.2)) span).mapError .runtime
    match allPairs.map (fun p => p.1) with
    | [] => .error (.crash "split_first on empty entry list")
    | first :: rest => do
      let entry ← (unionEntries first rest span).mapError .runtime
      .ok ((entry, disposition), t)

/-- `Object::get_field` (`object.rs`).  Vector fields are answered
structurally; geometry bounding-box fields are answered by the external
kernel (`Failure.kernel`); `ok none` means the field does not exist
(the caller raises `UndefinedField`).  The `unwrap_manifold` /
`unwrap_cross_section` panics on a mismatched entry are preserved. -/
def Object.getField (o : Object) (field : List Char) (t : GeometryTable) :
    Except Failure (Option Object) :=
  match o with
  | .Null => .ok none
  | .Number _ => .ok none
  | .Boolean _ => .ok none
  | .Vector objects =>
    if field = "x".data then .ok (some (objects.getD 0 .Null))
    else if field = "y".data then .ok (some (objects.getD 1 .Null))
    else if field = "z".data then .ok (some (objects.getD 2 .Null))
    else .ok none
  | .Manifold idx => do
    let entry ← t.get idx
    match entry with
    | .Manifold _ =>
      if field = "origin".data ∨ field = "min_point".data ∨
          field = "max_point".data ∨ field = "size".data then
        .error .kernel
      else .ok none
    | .CrossSection _ => .error (.crash "expected manifold")
  | .CrossSection idx => do
    let entry ← t.get idx
    match entry with
    | .CrossSection _ =>
      if field = "origin".data ∨ field = "min_point".data ∨
          field = "max_point".data ∨ field = "size".data then
        .error .kernel
      else .ok none
    | .Manifold _ => .error (.crash "expected cross-section")

/- Lexical scopes (`lexical_scope.rs`).  The source uses
`Rc<RefCell<LexicalScope>>` cells with parent pointers; the embedding uses
an arena of frames indexed by allocation order (each `RefCell` is one
arena slot, so shared mutation is preserved).  Name-walk recursion is
bounded by the frame count, which the parent chain (always pointing to an
earlier frame) cannot exceed. -/

structure ScopeFrame where
  bindings : List (List Char × Object)
  operators : List (List Char × Node)
  modules : List (List Char × Node)
  parent : Option Nat

def ScopeFrame.empty (parent : Option Nat) : ScopeFrame := ⟨[], [], [], parent⟩

structure ScopeArena where
  frames : List ScopeFrame

def ScopeArena.newRoot : ScopeArena := ⟨[ScopeFrame.empty none]⟩

def ScopeArena.getFrame (a : ScopeArena) (i : Nat) : Option ScopeFrame :=
  a.frames.get? i

def ScopeArena.pushFrame (a : ScopeArena) (parent : Nat) : Nat × ScopeArena :=
  (a.frames.length, ⟨a.frames ++ [ScopeFrame.empty (some parent)]⟩)

def ScopeArena.setFrame (a : ScopeArena) (i : Nat) (f : ScopeFrame) : ScopeArena :=
  ⟨a.frames.set i f⟩

def ScopeArena.getBindingAux (a : ScopeArena) : Nat → Nat → List Char → Option Object
  | 0, _, _ => none
  | fuel + 1, i, name =>
    match a.getFrame i with
    | none => none
    | some f =>
      match f.bindings.find? (fun b => b.1 = name) with
      | some b => some b.2
      | none =>
        match f.parent with
        | some p => a.getBindingAux fuel p name
        | none => none

/-- `LexicalScope::get_binding`: look in this frame, then walk parents. -/
def ScopeArena.getBinding (a : ScopeArena) (i : Nat) (name : List Char) :
    Option Object :=
  a.getBindingAux a.frames.length i name

def ScopeArena.getOperatorAux (a : ScopeArena) : Nat → Nat → List Char → Option Node
  | 0, _, _ => none
  | fuel + 1, i, name =>
    match a.getFrame i with
    | none => none
    | some f =>
      match f.operators.find? (fun b => b.1 = name) with
      | some b => some b.2
      | none =>
        match f.parent with
        | some p => a.getOperatorAux fuel p name
        | none => none

/-- `LexicalScope::get_operator`. -/
def ScopeArena.getOperator (a : ScopeArena) (i : Nat) (name : List Char) :
    Option Node :=
  a.getOperatorAux a.frames.length i name

/-- `LexicalScope::add_binding`.  `interpreter.rs` consumes a boolean
result (false when the name already resolves); the `lexical_scope.rs` in
this snapshot panics instead — the boolean reading the interpreter
expects is modeled, which only differs on the duplicate path. -/
def ScopeArena.addBinding (a : ScopeArena) (i : Nat) (name : List Char)
    (value : Object) : Bool × ScopeArena :=
  if (a.getBinding i name).isSome then (false, a)
  else
    match a.getFrame i with
    | none => (false, a)
    | some f =>
      (true, a.setFrame i { f with bindings := f.bindings ++ [(name, value)] })

/-- `LexicalScope::add_operator`, with the same boolean reading. -/
def ScopeArena.addOperator (a : ScopeArena) (i : Nat) (name : List Char)
    (definition : Node) : Bool × ScopeArena :=
  if (a.getOperator i name).isSome then (false, a)
  else
    match a.getFrame i with
    | none => (false, a)
    | some f =>
      (true, a.setFrame i { f with operators := f.operators ++ [(name, definition)] })

/-- `ItManifold` (`interpreter.rs`): what `it` currently refers to. -/
inductive ItManifold where
  | Some (idx : Nat)
  | UnsupportedNotOneChild
  | None
deriving DecidableEq, Repr

/-- `ExecutionContext` (`interpreter.rs`): the per-node evaluation
context.  The scope is an arena index (see `ScopeArena`). -/
structure ExecutionContext where
  itManifold : ItManifold
  operatorChildren : Option (List Nat)
  lexicalScope : Nat
  arguments : List (List Char × Object)

/-- `ExecutionContext::new`. -/
def ExecutionContext.new : ExecutionContext := ⟨.None, none, 0, []⟩

/-- Interpreter state: the geometry table plus the scope arena backing
the `Rc<RefCell<LexicalScope>>` cells. -/
structure InterpState where
  table : GeometryTable
  scopes : ScopeArena

/-- `Interpreter::new` sets `circle_segments` to 20 and never changes it. -/
def circleSegments : Int := 20

/-- `Interpreter::filter_objects_to_manifolds`: keep only the
`Object::Manifold` variant (a 2D result carried as `Object::CrossSection`
is dropped like a number or null). -/
def filterObjectsToManifolds (objects : List Object) : List Nat :=
  objects.filterMap (fun o =>
    match o with
    | .Manifold index => some index
    | _ => none)

/-- `Interpreter::filter_objects_to_physical_geometries`: manifold-variant
objects whose table disposition is Physical (`get_disposition` panics on a
dangling handle). -/
def filterObjectsToPhysicalGeometries (t : GeometryTable) (objects : List Object) :
    Except Failure (List Nat) :=
  (filterObjectsToManifolds objects).foldlM
    (fun acc index => do
      let d ← t.getDisposition index
      pure (if d = .Physical then acc ++ [index] else acc))
    []

/-- `Interpreter::create_object_from_new_geometry`. -/
def createObjectFromNewGeometry (geometry : GeometryTableEntry)
    (disposition : GeometryDisposition) (st : InterpState) : Object × InterpState :=
  match geometry with
  | .Manifold m =>
    let (idx, t) := st.table.add (.Manifold m) disposition
    (.Manifold idx, { st with table := t })
  | .CrossSection c =>
    let (idx, t) := st.table.add (.CrossSection c) disposition
    (.CrossSection idx, { st with table := t })

/-- `Interpreter::accept_arguments::<1>`. -/
def acceptOneArgument (arguments : List Object) (span : Span) :
    Except RuntimeError Object :=
  match arguments with
  | [a] => .ok a
  | _ => .error ⟨.IncorrectArity 1 1 arguments.length, span⟩

/-- `Interpreter::accept_arguments::<2>`. -/
def acceptTwoArguments (arguments : List Object) (span : Span) :
    Except RuntimeError (Object × Object) :=
  match arguments with
  | [a, b] => .ok (a, b)
  | _ => .error ⟨.IncorrectArity 2 2 arguments.length, span⟩

/-- `Interpreter::get_vec3_from_arguments` (`interpreter.rs`, lines
487-490): exactly one argument, converted by `into_3d_vector`. -/
def getVec3FromArguments (arguments : List Object) (span : Span) :
    Except RuntimeError (ℚ × ℚ × ℚ) := do
  let argument ← acceptOneArgument arguments span
  argument.into3dVector span

/-- `Interpreter::get_vec2_from_arguments`. -/
def getVec2FromArguments (arguments : List Object) (span : Span) :
    Except RuntimeError (ℚ × ℚ) := do
  let argument ← acceptOneArgument arguments span
  argument.into2dVector span

/-- `Interpreter::call_builtin_function` (`interpreter.rs`, lines
363-425).  Note the source's `"square"` arm wraps the new cross-section
handle in `Object::Manifold`, and `"copy"` always returns
`Object::Manifold`; both are preserved.  `"__debug"` prints and returns
null; the print is dropped. -/
def callBuiltinFunction (name : List Char) (arguments : List Object)
    (operatorChildren : Option (List Nat)) (span : Span) (st : InterpState) :
    Except Failure (Object × InterpState) :=
  if name = "cube".data then do
    let (x, y, z) ← (getVec3FromArguments arguments span).mapError .runtime
    let (idx, t) := st.table.add (.Manifold (.cube x y z false)) .Physical
    .ok (.Manifold idx, { st with table := t })
  else if name = "cylinder".data then do
    let (heightObj, radiusObj) ← (acceptTwoArguments arguments span).mapError .runtime
    let height ← (heightObj.asNumber span).mapError .runtime
    let radius ← (radiusObj.asNumber span).mapError .runtime
    let (idx, t) := st.table.add
      (.Manifold (.cylinder radius height circleSegments false)) .Physical
    .ok (.Manifold idx, { st with table := t })
  else if name = "square".data then do
    let (x, y) ← (getVec2FromArguments arguments span).mapError .runtime
    let (idx, t) := st.table.add (.CrossSection (.square x y false)) .Physical
    .ok (.Manifold idx, { st with table := t })
  else if name = "copy".data then do
    let manifoldObj ← (acceptOneArgument arguments span).mapError .runtime
    let manifoldIndex ← (manifoldObj.intoManifold span).mapError .runtime
    let entry ← st.table.get manifoldIndex
    let (idx, t) := st.table.add entry .Physical
    .ok (.Manifold idx, { st with table := t })
  else if name = "children".data then do
    match operatorChildren with
    | none => .error (.runtime ⟨.ChildrenInvalid, span⟩)
    | some children => do
      let (copiedChildren, st) ← children.foldlM
        (fun (acc : List Nat × InterpState) child => do
          let (copied, st) := acc
          let m ← st.table.get child
          let (idx, t) := st.table.add m .Physical
          pure (copied ++ [idx], { st with table := t }))
        ([], st)
      let ((geom, disp), t) ← unionChildGeometry copiedChildren span st.table
      .ok (createObjectFromNewGeometry geom disp { st with table := t })
  else if name = "__debug".data then
    .ok (.Null, st)
  else
    .error (.runtime ⟨.UndefinedIdentifier name, span⟩)

/-- `Interpreter::apply_builtin_operator` (`interpreter.rs`, lines
427-485).  The `"difference"` arm's empty-children case is the source's
`todo!()`, a panic; its subtrahend `unwrap_manifold` and
`linear_extrude`'s `unwrap_cross_section` are panics on the wrong
dimension. -/
def applyBuiltinOperator (name : List Char) (arguments : List Object)
    (children : List Nat) (span : Span) (st : InterpState) :
    Except Failure (Nat × InterpState) :=
  if name = "translate".data then do
    let ((geom, d), t) ← unionChildGeometry children span st.table
    match geom with
    | .Manifold manifold => do
      let (x, y, z) ← (getVec3FromArguments arguments span).mapError .runtime
      let (idx, t) := t.add (.Manifold (manifold.translate x y z)) d
      .ok (idx, { st with table := t })
    | .CrossSection crossSection => do
      let (x, y) ← (getVec2FromArguments arguments span).mapError .runtime
      let (idx, t) := t.add (.CrossSection (crossSection.translate x y)) d
      .ok (idx, { st with table := t })
  else if name = "union".data then do
    let ((geom, disp), t) ← unionChildGeometry children span st.table
    let (idx, t) := t.add geom disp
    .ok (idx, { st with table := t })
  else if name = "difference".data then
    match children with
    | [] => .error (.crash "todo - difference with no children")
    | minuend :: rest =>
      if rest = [] then .ok (minuend, st)
      else do
        let ((subtrahend, _), t) ← unionChildGeometry rest span st.table
        match subtrahend with
        | .Manifold subtrahendManifold => do
          let (idx, t) ← t.mapManifold minuend (fun m => m.difference subtrahendManifold)
          .ok (idx, { st with table := t })
        | .CrossSection _ => .error (.crash "expected manifold")
  else if name = "linear_extrude".data then do
    let heightObj ← (acceptOneArgument arguments span).mapError .runtime
    let height ← (heightObj.asNumber span).mapError .runtime
    let ((geom, disp), t) ← unionChildGeometry children span st.table
    match geom with
    | .CrossSection crossSection =>
      let (idx, t) := t.add (.Manifold (.extrude crossSection height)) disp
      .ok (idx, { st with table := t })
    | .Manifold _ => .error (.crash "expected cross-section")
  else if name = "buffer".data then do
    let ((geom, _), t) ← unionChildGeometry children span st.table
    let (idx, t) := t.add geom .Virtual
    .ok (idx, { st with table := t })
  else
    .error (.runtime ⟨.UndefinedIdentifier name, span⟩)

/-- One pass of the range literal's `while current < end` loop body.  The
loop increments by exactly 1 each iteration, so it runs
`⌈end − current⌉` times; the definition uses that explicit count to stay
structurally recursive, and `rangePush_loop_eq` below certifies it
satisfies the loop's defining recurrence. -/
def rangePushLoop : Nat → ℚ → List ℚ
  | 0, _ => []
  | n + 1, current => (current + 1) :: rangePushLoop n (current + 1)

/-- The values pushed by the range literal's loop after the initial
`vec![start]`. -/
def rangePush (current stop : ℚ) : List ℚ :=
  rangePushLoop (⌈stop - current⌉).toNat current

theorem rangePush_loop_eq (current stop : ℚ) :
    rangePush current stop =
      if current < stop then (current + 1) :: rangePush (current + 1) stop
      else [] := by
  unfold rangePush
  by_cases h : current < stop
  · have hpos : (0 : ℚ) < stop - current := by linarith
    have hceil : (1 : ℤ) ≤ ⌈stop - current⌉ := Int.one_le_ceil_iff.mpr hpos
    have hsub : (stop - (current + 1)) = (stop - current) - 1 := by ring
    have hceil2 : ⌈stop - (current + 1)⌉ = ⌈stop - current⌉ - 1 := by
      rw [hsub]
      exact_mod_cast Int.ceil_sub_int (stop - current) 1
    have htn : (⌈stop - current⌉).toNat =
        (⌈stop - (current + 1)⌉).toNat + 1 := by
      rw [hceil2]
      omega
    rw [htn]
    simp [rangePushLoop, h]
  · have hle : stop - current ≤ (0 : ℚ) := by linarith
    have hc : ⌈stop - current⌉ ≤ 0 := Int.ceil_le.mpr (by exact_mod_cast hle)
    have hz : (⌈stop - current⌉).toNat = 0 := by omega
    simp [hz, rangePushLoop, h]

/- `Interpreter::interpret` (`interpreter.rs`, lines 113-355) and its two
body/loop helpers.  The interpreter revision in this snapshot matches only
the node kinds listed in its `match`; the parser's `BooleanLiteral`,
`ModuleDefinition` and `IfConditional` variants have no arm (the crate
does not compile as one unit), modeled as a `crash`.  The same revision
predates named arguments, so argument lists are their positional parts,
and zips operator-application arguments against the flat parameter name
list (`Parameters::ordered_names` order).  Recursion through the AST is
made explicit with fuel (decremented on every call; `outOfFuel` is never
reached by any theorem below). -/
mutual

def interpret : Nat → Node → ExecutionContext → InterpState →
    Except Failure (Object × InterpState)
  | 0, _, _, _ => .error .outOfFuel
  | fuel + 1, node, ctx, st =>
    match node.kind with
    | .Identifier id =>
      -- arguments have highest priority, then scope bindings
      (match ctx.arguments.find? (fun a => a.1 = id) with
      | some a => .ok (a.2, st)
      | none =>
        match st.scopes.getBinding ctx.lexicalScope id with
        | some v => .ok (v, st)
        | none => .error (.runtime ⟨.UndefinedIdentifier id, node.span⟩))
    | .NumberLiteral num => .ok (.Number num, st)
    | .VectorLiteral items => do
      let (objs, st) ← interpretBody fuel items ctx st
      .ok (.Vector objs, st)
    | .VectorRangeLiteral startNode endNode => do
      let (startObj, st) ← interpret fuel startNode ctx st
      let startVal ← (startObj.asNumber node.span).mapError .runtime
      let (endObj, st) ← interpret fuel endNode ctx st
      let endVal ← (endObj.asNumber node.span).mapError .runtime
      if endVal < startVal then
        .error (.runtime ⟨.FlippedRange, node.span⟩)
      else
        -- items = vec![start]; while current < end push (current += 1)
        .ok (.Vector ((startVal :: rangePush startVal endVal).map .Number), st)
    | .ItReference =>
      (match ctx.itManifold with
      | .Some idx => .ok (.Manifold idx, st)
      | .UnsupportedNotOneChild =>
        .error (.runtime ⟨.ItReferenceUnsupportedNotOneChild, node.span⟩)
      | .None => .error (.runtime ⟨.ItReferenceInvalid, node.span⟩))
    | .OperatorApplication name arguments children => do
      -- children are evaluated with `it` disabled
      let (allChildren, st) ←
        interpretBody fuel children { ctx with itManifold := .None } st
      let manifoldChildren := filterObjectsToManifolds allChildren
      let itManifold := match manifoldChildren with
        | [onlyChild] => ItManifold.Some onlyChild
        | _ => ItManifold.UnsupportedNotOneChild
      let (argObjs, st) ←
        interpretBody fuel arguments.positional { ctx with itManifold := itManifold } st
      match st.scopes.getOperator ctx.lexicalScope name with
      | some userOperator =>
        (match userOperator.kind with
        | .OperatorDefinition _ parameters body => do
          let parameterNames :=
            parameters.required ++ parameters.optional.map (fun p => p.1)
          if argObjs.length ≠ parameterNames.length then
            .error (.runtime ⟨.IncorrectArity parameterNames.length
              parameterNames.length argObjs.length, node.span⟩)
          else do
            let argumentMap := parameterNames.zip argObjs
            let (temporaryVirtualManifolds, st) ← manifoldChildren.foldlM
              (fun (acc : List Nat × InterpState) index => do
                let (made, st) := acc
                let ((entry, _), t) ← st.table.remove index
                let (idx, t) := t.add entry .Virtual
                pure (made ++ [idx], { st with table := t }))
              ([], st)
            let (scopeIdx, arena) := st.scopes.pushFrame ctx.lexicalScope
            let st := { st with scopes := arena }
            let bodyCtx : ExecutionContext :=
              ⟨.None, some temporaryVirtualManifolds, scopeIdx, argumentMap⟩
            let (resultObjects, st) ← interpretBody fuel body bodyCtx st
            let resultManifolds ←
              filterObjectsToPhysicalGeometries st.table resultObjects
            let ((geom, disp), t) ← unionChildGeometry resultManifolds node.span st.table
            let st := { st with table := t }
            let st ← temporaryVirtualManifolds.foldlM
              (fun (st : InterpState) index => do
                let (_, t) ← st.table.remove index
                pure { st with table := t })
              st
            .ok (createObjectFromNewGeometry geom disp st)
        | _ => .error (.crash "operator scope entry is not an operator definition"))
      | none => do
        let (idx, st) ← applyBuiltinOperator name argObjs manifoldChildren node.span st
        .ok (.Manifold idx, st)
    | .Call name arguments => do
      let (argObjs, st) ← interpretBody fuel arguments.positional ctx st
      callBuiltinFunction name argObjs ctx.operatorChildren node.span st
    | .Binding name value => do
      let (valueObj, st) ← interpret fuel value ctx st
      if (ctx.arguments.find? (fun a => a.1 = name)).isSome then
        .error (.runtime ⟨.DuplicateBinding name, node.span⟩)
      else
        let (ok, arena) := st.scopes.addBinding ctx.lexicalScope name valueObj
        if !ok then .error (.runtime ⟨.DuplicateBinding name, node.span⟩)
        else .ok (valueObj, { st with scopes := arena })
    | .FieldAccess value field => do
      let (valueObj, st) ← interpret fuel value ctx st
      let fieldValue ← valueObj.getField field st.table
      match fieldValue with
      | some v => .ok (v, st)
      | none =>
        .error (.runtime ⟨.UndefinedField valueObj.describeType field, node.span⟩)
    | .BinaryOperation left right op => do
      let (leftObj, st) ← interpret fuel left ctx st
      let leftVal ← (leftObj.asNumber node.span).mapError .runtime
      let (rightObj, st) ← interpret fuel right ctx st
      let rightVal ← (rightObj.asNumber node.span).mapError .runtime
      match op with
      | .Add => .ok (.Number (leftVal + rightVal), st)
      | .Subtract => .ok (.Number (leftVal - rightVal), st)
      | .Multiply => .ok (.Number (leftVal * rightVal), st)
      | .Divide => .ok (.Number (leftVal / rightVal), st)
      | _ => .error (.crash "match arm missing for comparison operator")
    | .UnaryNegate value => do
      let (valueObj, st) ← interpret fuel value ctx st
      let v ← (valueObj.asNumber node.span).mapError .runtime
      .ok (.Number (-v), st)
    | .OperatorDefinition name _ _ =>
      let (ok, arena) := st.scopes.addOperator ctx.lexicalScope name node
      if !ok then .error (.runtime ⟨.DuplicateBinding name, node.span⟩)
      else .ok (.Null, { st with scopes := arena })
    | .ForLoop loopVariable loopSource body => do
      let (sourceObj, st) ← interpret fuel loopSource ctx st
      let items ← (sourceObj.intoVector node.span).mapError .runtime
      let (resultObjects, st) ←
        interpretForItems fuel items loopVariable body node.span ctx st
      let resultManifolds ← filterObjectsToPhysicalGeometries st.table resultObjects
      let ((geom, disp), t) ← unionChildGeometry resultManifolds node.span st.table
      .ok (createObjectFromNewGeometry geom disp { st with table := t })
    | .BooleanLiteral _ => .error (.crash "match arm missing for BooleanLiteral")
    | .ModuleDefinition _ _ _ =>
      .error (.crash "match arm missing for ModuleDefinition")
    | .IfConditional _ _ _ =>
      .error (.crash "match arm missing for IfConditional")

/-- `Interpreter::interpret_body` (also the in-order evaluation used for
vector items, operator children and argument expressions). -/
def interpretBody : Nat → List Node → ExecutionContext → InterpState →
    Except Failure (List Object × InterpState)
  | 0, _, _, _ => .error .outOfFuel
  | fuel + 1, nodes, ctx, st =>
    match nodes with
    | [] => .ok ([], st)
    | n :: rest => do
      let (o, st) ← interpret fuel n ctx st
      let (os, st) ← interpretBody fuel rest ctx st
      .ok (o :: os, st)

/-- The per-element body of the `ForLoop` arm: deeper scope, loop-variable
binding, body evaluation, results accumulated across iterations. -/
def interpretForItems : Nat → List Object → List Char → List Node → Span →
    ExecutionContext → InterpState → Except Failure (List Object × InterpState)
  | 0, _, _, _, _, _, _ => .error .outOfFuel
  | fuel + 1, items, loopVariable, body, span, ctx, st =>
    match items with
    | [] => .ok ([], st)
    | item :: rest => do
      let (scopeIdx, arena) := st.scopes.pushFrame ctx.lexicalScope
      let st := { st with scopes := arena }
      let (ok, arena2) := st.scopes.addBinding scopeIdx loopVariable item
      if !ok then .error (.runtime ⟨.DuplicateBinding loopVariable, span⟩)
      else do
        let st := { st with scopes := arena2 }
        let (objs, st) ←
          interpretBody fuel body { ctx with lexicalScope := scopeIdx } st
        let (objsRest, st) ← interpretForItems fuel rest loopVariable body span ctx st
        .ok (objs ++ objsRest, st)

end

/-- `Interpreter::interpret_top_level` inner loop: evaluate each node in
sequence against one context, propagating the first error (`?`). -/
def interpretTopLevelGo (fuel : Nat) : List Node → ExecutionContext → InterpState →
    Except Failure InterpState
  | [], _, st => .ok st
  | n :: rest, ctx, st => do
    let (_, st) ← interpret fuel n ctx st
    interpretTopLevelGo fuel rest ctx st

/-- `Interpreter::interpret_top_level`: a fresh `ExecutionContext` (with a
fresh root scope) shared by every top-level node. -/
def interpretTopLevel (fuel : Nat) (nodes : List Node) (t : GeometryTable) :
    Except Failure GeometryTable := do
  let st ← interpretTopLevelGo fuel nodes ExecutionContext.new ⟨t, ScopeArena.newRoot⟩
  .ok st.table

/-- `Interpreter::build_top_level_manifold` (`interpreter.rs`, lines
89-103): fold over the live table entries, unioning every Physical
manifold into `Manifold::new()`; a Physical 2D cross-section hits the
source's `panic!("top-level 2D geometry is not yet supported")`; Virtual
entries are skipped. -/
def buildTopLevelManifold (t : GeometryTable) : Except Failure Manifold :=
  t.table.foldlM
    (fun result entry =>
      if entry.2.2 = .Physical then
        match entry.2.1 with
        | .Manifold manifold => .ok (result.union manifold)
        | .CrossSection _ =>
          .error (.crash "top-level 2D geometry is not yet supported")
      else .ok result)
    Manifold.new

/-- `LangError` (`lang/lib/src/lib.rs`). -/
inductive LangError where
  | Tokenize (errors : List TokenizeError)
  | Parser (errors : List ParseError)
  | Runtime (e : RuntimeError)
deriving DecidableEq, Repr

/-- Outcome of `build_model`: its `Result`, or a panic/kernel/fuel
outcome that Rust would not surface as `Err`. -/
inductive BuildResult where
  | ok (m : Manifold)
  | err (e : LangError)
  | diverged (f : Failure)
deriving DecidableEq, Repr

/-- Fuel budgets for one `build_model` run; generous bounds (Rust needs
none because each parser rule and each interpreter step makes forward
progress). -/
def parserFuel (tokens : List Token) : Nat := tokens.length * 16 + 64

def interpreterFuel : Nat := 1000

/-- `build_model` (`lang/lib/src/lib.rs`, lines 17-41): tokenize; stop
with all tokenize errors if any; parse; stop with all parse errors if
any; interpret; on success assemble the final manifold. -/
def buildModel (source : List Char) : BuildResult :=
  let tokens := (tokenize source).1
  let errors := (tokenize source).2
  if errors ≠ [] then .err (.Tokenize errors)
  else
    let parsed := parseStatements (parserFuel tokens) ⟨tokens, [], utf8Len source⟩
    if parsed.2.errors ≠ [] then .err (.Parser parsed.2.errors)
    else
      match interpretTopLevel interpreterFuel parsed.1 GeometryTable.new with
      | .error (.runtime e) => .err (.Runtime e)
      | .error f => .diverged f
      | .ok t =>
        match buildTopLevelManifold t with
        | .ok m => .ok m
        | .error f => .diverged f

/- `impl PartialEq for Object` (`object.rs`, lines 174-196): structural
for number/boolean/vector/null; geometry handles never compare equal,
even to themselves.  `objectEqList` is `Vec<Object>`'s `PartialEq`
(lengths equal and elementwise equal). -/
mutual

def objectEq : Object → Object → Bool
  | .Number l, .Number r => l == r
  | .Boolean l, .Boolean r => l == r
  | .Vector l, .Vector r => objectEqList l r
  | .Null, .Null => true
  | .Manifold _, .Manifold _ => false
  | .CrossSection _, .CrossSection _ => false
  | _, _ => false

def objectEqList : List Object → List Object → Bool
  | [], [] => true
  | a :: as_, b :: bs => objectEq a b && objectEqList as_ bs
  | _, _ => false

end

/-- Modelled from the spec: the snapshot's interpreter has no arm for the
`==` binary operator (its `BinaryOperation` case covers only the four
arithmetic operators; the revision evaluating comparisons is not under
`src/`).  Spec §4.6: "`==` is defined by the object-equality rules of
§3", i.e. by `impl PartialEq for Object`, which is `objectEq` above. -/
def eqOperatorResult (l r : Object) : Object := .Boolean (objectEq l r)

/- The newer built-in operator catalog (`builtin/operators.rs`,
`builtin/modules.rs`).  Actions receive their validated arguments; the
`arguments["v"]`-style map access is modeled by passing the argument
object directly.  `Object::as_3d_vector` / `as_2d_vector` (the newer
`object.rs` revision, not in this snapshot) are modeled by
`into_3d_vector` / `into_2d_vector`, their by-value forms here. -/

/-- `difference_definition` (`builtin/operators.rs`, lines 46-75): no
children is a `ChildrenExpected` error; one child is returned unchanged
with its disposition; otherwise the first child minus the union of the
rest, erroring on mixed dimensions. -/
def differenceDefinitionAction (children : List Nat) (span : Span)
    (t : GeometryTable) :
    Except Failure ((GeometryTableEntry × GeometryDisposition) × GeometryTable) :=
  match children with
  | [] => .error (.runtime ⟨.ChildrenExpected, span⟩)
  | firstChild :: rest => do
    let ((minuend, disp), t) ← t.remove firstChild
    match rest with
    | [] => .ok ((minuend, disp), t)
    | _ => do
      let ((subtrahend, _), t) ← t.removeManyIntoUnion rest span
      match minuend, subtrahend with
      | .Manifold minuendManifold, .Manifold subtrahendManifold =>
        .ok ((.Manifold (minuendManifold.difference subtrahendManifold), disp), t)
      | .CrossSection minuendCrossSection, .CrossSection subtrahendCrossSection =>
        .ok ((.CrossSection (minuendCrossSection.difference subtrahendCrossSection),
          disp), t)
      | _, _ => .error (.runtime ⟨.MixedGeometryDimensions, span⟩)

/-- `translate_definition` (`builtin/operators.rs`). -/
def translateDefinitionAction (v : Object) (children : List Nat) (span : Span)
    (t : GeometryTable) :
    Except Failure ((GeometryTableEntry × GeometryDisposition) × GeometryTable) := do
  let ((geom, d), t) ← t.removeManyIntoUnion children span
  match geom with
  | .Manifold manifold => do
    let (x, y, z) ← (v.into3dVector span).mapError .runtime
    .ok ((.Manifold (manifold.translate x y z), d), t)
  | .CrossSection crossSection => do
    let (x, y) ← (v.into2dVector span).mapError .runtime
    .ok ((.CrossSection (crossSection.translate x y), d), t)

/-- `rotate_definition` (`builtin/operators.rs`): vec3 for 3D, scalar
angle for 2D. -/
def rotateDefinitionAction (v : Object) (children : List Nat) (span : Span)
    (t : GeometryTable) :
    Except Failure ((GeometryTableEntry × GeometryDisposition) × GeometryTable) := do
  let ((geom, d), t) ← t.removeManyIntoUnion children span
  match geom with
  | .Manifold manifold => do
    let (x, y, z) ← (v.into3dVector span).mapError .runtime
    .ok ((.Manifold (manifold.rotate x y z), d), t)
  | .CrossSection crossSection => do
    let angle ← (v.asNumber span).mapError .runtime
    .ok ((.CrossSection (crossSection.rotate angle), d), t)

/-- `scale_definition` (`builtin/operators.rs`). -/
def scaleDefinitionAction (v : Object) (children : List Nat) (span : Span)
    (t : GeometryTable) :
    Except Failure ((GeometryTableEntry × GeometryDisposition) × GeometryTable) := do
  let ((geom, d), t) ← t.removeManyIntoUnion children span
  match geom with
  | .Manifold manifold => do
    let (x, y, z) ← (v.into3dVector span).mapError .runtime
    .ok ((.Manifold (manifold.scale x y z), d), t)
  | .CrossSection crossSection => do
    let (x, y) ← (v.into2dVector span).mapError .runtime
    .ok ((.CrossSection (crossSection.scale x y), d), t)

/-- `mirror_definition` (`builtin/operators.rs`). -/
def mirrorDefinitionAction (v : Object) (children : List Nat) (span : Span)
    (t : GeometryTable) :
    Except Failure ((GeometryTableEntry × GeometryDisposition) × GeometryTable) := do
  let ((geom, d), t) ← t.removeManyIntoUnion children span
  match geom with
  | .Manifold manifold => do
    let (x, y, z) ← (v.into3dVector span).mapError .runtime
    .ok ((.Manifold (manifold.mirror x y z), d), t)
  | .CrossSection crossSection => do
    let (x, y) ← (v.into2dVector span).mapError .runtime
    .ok ((.CrossSection (crossSection.mirror x y), d), t)

/-- `cube_definition` (`builtin/modules.rs`): a vector size goes through
`as_3d_vector`, a number n is (n, n, n), anything else is an
`IncorrectType` error; adds a Physical manifold. -/
def cubeDefinitionAction (size : Object) (span : Span) (t : GeometryTable) :
    Except Failure (Object × GeometryTable) := do
  let (x, y, z) ←
    match size with
    | .Vector _ => (size.into3dVector span).mapError Failure.runtime
    | .Number n => .ok (n, n, n)
    | o =>
      .error (.runtime ⟨.IncorrectType "number or vector" o.describeType, span⟩)
  let (idx, t) := t.add (.Manifold (.cube x y z false)) .Physical
  .ok (.Manifold idx, t)

/-- A span placeholder for hand-built ASTs. -/
def sp0 : Span := ⟨0, 0⟩

/-- The literal node `[1, 1]`. -/
def vec11Node : Node :=
  .mk (.VectorLiteral [.mk (.NumberLiteral 1) sp0, .mk (.NumberLiteral 1) sp0]) sp0

/-- The statement `square([1, 1]);`. -/
def squareCallNode : Node := .mk (.Call "square".data (.mk [vec11Node] [])) sp0

/-- The statement `cube([1, 1, 1]);`. -/
def cubeCallNode : Node :=
  .mk (.Call "cube".data (.mk [.mk (.VectorLiteral [.mk (.NumberLiteral 1) sp0,
    .mk (.NumberLiteral 1) sp0, .mk (.NumberLiteral 1) sp0]) sp0] [])) sp0

/-- `for (i = [1]) \x7b square([1,1]); \x7d` — a loop whose single
iteration emits one Physical cross-section, so the loop statement's own
result is an `Object::CrossSection`. -/
def forSquareNode : Node :=
  .mk (.ForLoop "i".data (.mk (.VectorLiteral [.mk (.NumberLiteral 1) sp0]) sp0)
    [squareCallNode]) sp0

/-- `translate(it) \x7b for (i = [1]) \x7b square([1,1]); \x7d \x7d` —
an operator application over exactly one geometry-typed (2D) child, with
`it` in argument position (`it`'s span is ⟨1, 1⟩). -/
def translateItOverCrossSection : Node :=
  .mk (.OperatorApplication "translate".data (.mk [.mk .ItReference ⟨1, 1⟩] [])
    [forSquareNode]) sp0

/-- `operator f(a) \x7b children(); \x7d`. -/
def operatorFDefNode : Node :=
  .mk (.OperatorDefinition "f".data (.mk ["a".data] [])
    [.mk (.Call "children".data (.mk [] [])) sp0]) sp0

/-- `f(it) \x7b cube([1,1,1]); \x7d` — one 3D child, `it` as argument. -/
def fOfItNode : Node :=
  .mk (.OperatorApplication "f".data (.mk [.mk .ItReference ⟨2, 2⟩] [])
    [cubeCallNode]) sp0

/-- `translate(it) \x7b cube([1,1,1]); cube([1,1,1]); \x7d` — two 3D
children, `it` as argument (`it`'s span is ⟨3, 3⟩). -/
def translateItTwoCubes : Node :=
  .mk (.OperatorApplication "translate".data (.mk [.mk .ItReference ⟨3, 3⟩] [])
    [cubeCallNode, cubeCallNode]) sp0

/-- The range literal node used by the `C4` theorems. -/
def rangeLiteralNode (a b : ℚ) (sp sp1 sp2 : Span) : Node :=
  .mk (.VectorRangeLiteral (.mk (.NumberLiteral a) sp1) (.mk (.NumberLiteral b) sp2)) sp

/- ------------------------------------------------------------------ -/
/- Theorems.                                                           -/
/- ------------------------------------------------------------------ -/

theorem rangePushLoop_eq_map (n : Nat) (current : ℚ) :
    rangePushLoop n current = (List.range n).map (fun (k : Nat) => current + ((k : ℚ) + 1)) := by
  induction n generalizing current with
  | zero => simp [rangePushLoop]
  | succ n ih =>
    rw [List.range_succ_eq_map]
    simp only [rangePushLoop, ih, List.map_cons, List.map_map, Nat.cast_zero,
      List.cons.injEq]
    refine ⟨by norm_num, List.map_congr_left fun k _ => ?_⟩
    simp only [Function.comp_apply, Nat.cast_succ]
    ring

theorem rangePush_add_nat (a : ℚ) (n : Nat) :
    a :: rangePush a (a + n) = (List.range (n + 1)).map (fun (k : Nat) => a + (k : ℚ)) := by
  have hceil : (⌈a + (n : ℚ) - a⌉ : ℤ) = n := by
    norm_num
  rw [List.range_succ_eq_map]
  simp only [rangePush, hceil, Int.toNat_natCast, rangePushLoop_eq_map,
    List.map_cons, List.map_map, Nat.cast_zero, List.cons.injEq]
  refine ⟨by norm_num, List.map_congr_left fun k _ => ?_⟩
  simp only [Function.comp_apply, Nat.cast_succ]

/-- C4 (amended): evaluating the range literal with numeric endpoints a
and b fails with `FlippedRange` exactly when `b < a`; otherwise it yields
the unit-step vector starting at a with `⌈b − a⌉` pushed steps, which
ends exactly at b precisely when b − a is a natural number (in
particular `[1:3] = [1,2,3]`).  When b − a is not a whole number the
vector overshoots b (see the counterexample). -/
theorem C4_range_literal_amended (a b : ℚ) (sp sp1 sp2 : Span)
    (ctx : ExecutionContext) (st : InterpState) (fuel : Nat) :
    (b < a →
      interpret (fuel + 2) (rangeLiteralNode a b sp sp1 sp2) ctx st =
        .error (.runtime ⟨.FlippedRange, sp⟩)) ∧
    (¬ b < a →
      interpret (fuel + 2) (rangeLiteralNode a b sp sp1 sp2) ctx st =
        .ok (.Vector ((a :: rangePush a b).map .Number), st)) ∧
    (∀ n : Nat, b = a + n →
      a :: rangePush a b = (List.range (n + 1)).map (fun (k : Nat) => a + (k : ℚ))) ∧
    (∀ n : Nat, b = a + n → (a :: rangePush a b).getLast? = some b) := by
  refine ⟨?_, ?_, ?_, ?_⟩
  · intro h
    simp only [rangeLiteralNode, interpret, Node.kind, Node.span, Object.asNumber,
      Except.mapError, h, if_pos, bind, Except.bind]
  · intro h
    simp only [rangeLiteralNode, interpret, Node.kind, Node.span, Object.asNumber,
      Except.mapError, bind, Except.bind, if_neg h]
  · intro n h
    rw [h]
    exact rangePush_add_nat a n
  · intro n h
    rw [h, rangePush_add_nat a n, List.range_succ, List.map_append]
    simp

/-- C4 counterexample: on the range literal `[1 : 2.5]` the end is not
below the start, yet the produced vector is `[1, 2, 3]` — its unit steps
do not end exactly at `b = 2.5` (the last element is 3), refuting the
claim's "ending exactly at b" for non-integral spans. -/
theorem C4_range_literal_counterexample :
    interpret 2 (rangeLiteralNode 1 (5 / 2) ⟨0, 0⟩ ⟨0, 0⟩ ⟨0, 0⟩)
        ExecutionContext.new ⟨GeometryTable.new, ScopeArena.newRoot⟩ =
      .ok (.Vector [.Number 1, .Number 2, .Number 3],
        ⟨GeometryTable.new, ScopeArena.newRoot⟩) ∧
    ¬ ((5 : ℚ) / 2 < 1) ∧ (3 : ℚ) ≠ 5 / 2 := by
  have hceil : (⌈(3 / 2 : ℚ)⌉ : ℤ) = 2 := by
    rw [Int.ceil_eq_iff]
    norm_num
  have hpush : rangePush 1 (5 / 2) = [2, 3] := by
    norm_num [rangePush, hceil, rangePushLoop]
  refine ⟨?_, by norm_num, by norm_num⟩
  simp only [rangeLiteralNode, interpret, Node.kind, Node.span, Object.asNumber,
    Except.mapError, bind, Except.bind]
  rw [if_neg (by norm_num)]
  simp [hpush]

/-- C4 witness: `[3:1]` is `FlippedRange` and `[1:3]` is `[1, 2, 3]`,
by the amended theorem at concrete inputs. -/
theorem C4_range_literal_witness :
    interpret 2 (rangeLiteralNode 3 1 ⟨0, 0⟩ ⟨0, 0⟩ ⟨0, 0⟩) ExecutionContext.new
        ⟨GeometryTable.new, ScopeArena.newRoot⟩ =
      .error (.runtime ⟨.FlippedRange, ⟨0, 0⟩⟩) ∧
    interpret 2 (rangeLiteralNode 1 3 ⟨0, 0⟩ ⟨0, 0⟩ ⟨0, 0⟩) ExecutionContext.new
        ⟨GeometryTable.new, ScopeArena.newRoot⟩ =
      .ok (.Vector ((1 :: rangePush 1 3).map .Number),
        ⟨GeometryTable.new, ScopeArena.newRoot⟩) ∧
    (1 : ℚ) :: rangePush 1 3 = [1, 2, 3] := by
  refine ⟨(C4_range_literal_amended 3 1 ⟨0, 0⟩ ⟨0, 0⟩ ⟨0, 0⟩ ExecutionContext.new
      ⟨GeometryTable.new, ScopeArena.newRoot⟩ 0).1 (by norm_num),
    (C4_range_literal_amended 1 3 ⟨0, 0⟩ ⟨0, 0⟩ ⟨0, 0⟩ ExecutionContext.new
      ⟨GeometryTable.new, ScopeArena.newRoot⟩ 0).2.1 (by norm_num), ?_⟩
  have h := (C4_range_literal_amended 1 3 ⟨0, 0⟩ ⟨0, 0⟩ ⟨0, 0⟩ ExecutionContext.new
      ⟨GeometryTable.new, ScopeArena.newRoot⟩ 0).2.2.1 2 (by norm_num)
  rw [h]
  simp [List.range_succ]
  norm_num

theorem objectEqList_iff_forall2 (l r : List Object) :
    objectEqList l r = true ↔ List.Forall₂ (fun a b => objectEq a b = true) l r := by
  induction l generalizing r with
  | nil => cases r <;> simp [objectEqList]
  | cons a l ih =>
    cases r with
    | nil => simp [objectEqList]
    | cons b r => simp [objectEqList, List.forall₂_cons, ih]

/-- C6: the `==` operator follows the object-equality rules of
`impl PartialEq for Object`: structural for numbers, booleans, vectors
and null, and false for every pair of geometry handles — including a
handle compared with itself, so `==` is not reflexive on geometry. -/
theorem C6_object_equality :
    (∀ a b : ℚ, objectEq (.Number a) (.Number b) = true ↔ a = b) ∧
    (∀ a b : Bool, objectEq (.Boolean a) (.Boolean b) = true ↔ a = b) ∧
    objectEq .Null .Null = true ∧
    (∀ l r : List Object, objectEq (.Vector l) (.Vector r) = true ↔
      List.Forall₂ (fun a b => objectEq a b = true) l r) ∧
    (∀ i j : Nat, objectEq (.Manifold i) (.Manifold j) = false) ∧
    (∀ i j : Nat, objectEq (.CrossSection i) (.CrossSection j) = false) ∧
    (∀ h : Nat, objectEq (.Manifold h) (.Manifold h) = false ∧
      objectEq (.CrossSection h) (.CrossSection h) = false) ∧
    (∀ l r : Object, eqOperatorResult l r = .Boolean (objectEq l r)) := by
  refine ⟨?_, ?_, rfl, ?_, ?_, ?_, ?_, ?_⟩
  · intro a b
    simp [objectEq]
  · intro a b
    cases a <;> cases b <;> simp [objectEq]
  · intro l r
    rw [← objectEqList_iff_forall2]
    simp [objectEq]
  · intro i j
    simp [objectEq]
  · intro i j
    simp [objectEq]
  · intro h
    exact ⟨by simp [objectEq], by simp [objectEq]⟩
  · intro l r
    rfl

/-- C6 witness: concrete instances — a geometry handle is not `==` to
itself, while equal numbers are. -/
theorem C6_object_equality_witness :
    objectEq (.Manifold 1) (.Manifold 1) = false ∧
    objectEq (.Number 2) (.Number 2) = true := by
  exact ⟨(C6_object_equality.2.2.2.2.2.2.1 1).1, (C6_object_equality.1 2 2).mpr rfl⟩

/-- C9: `into_3d_vector` accepts `[x, y]` as `(x, y, 0)` and `[x, y, z]`
as `(x, y, z)`, and rejects any other vector length with
`IncorrectVectorLength` expecting 2..=3; `get_vec3_from_arguments`, the
`cube` builtins (both revisions) and the catalog's
translate/rotate/scale/mirror 3D branches all go through it. -/
theorem C9_builtin_vec3_accepts_2d_vector :
    (∀ (x y : ℚ) (sp : Span),
      Object.into3dVector (.Vector [.Number x, .Number y]) sp = .ok (x, y, 0)) ∧
    (∀ (x y z : ℚ) (sp : Span),
      Object.into3dVector (.Vector [.Number x, .Number y, .Number z]) sp =
        .ok (x, y, z)) ∧
    (∀ (v : List Object) (sp : Span), v.length ≠ 2 → v.length ≠ 3 →
      Object.into3dVector (.Vector v) sp =
        .error ⟨.IncorrectVectorLength 2 3 v.length, sp⟩) ∧
    (∀ (o : Object) (sp : Span),
      getVec3FromArguments [o] sp = o.into3dVector sp) ∧
    (∀ (x y : ℚ) (sp : Span) (t : GeometryTable),
      cubeDefinitionAction (.Vector [.Number x, .Number y]) sp t =
        .ok (.Manifold t.nextIndex, (t.add (.Manifold (.cube x y 0 false)) .Physical).2)) ∧
    (∀ (x y : ℚ) (sp : Span) (oc : Option (List Nat)) (st : InterpState),
      callBuiltinFunction "cube".data [.Vector [.Number x, .Number y]] oc sp st =
        .ok (.Manifold st.table.nextIndex,
          { st with table := (st.table.add (.Manifold (.cube x y 0 false)) .Physical).2 })) ∧
    (∀ (x y : ℚ) (sp : Span) (i : Nat) (m : Manifold) (d : GeometryDisposition)
        (t : GeometryTable), t.lookup i = some (.Manifold m, d) →
      translateDefinitionAction (.Vector [.Number x, .Number y]) [i] sp t =
        .ok ((.Manifold (m.translate x y 0), d), t.eraseIdx i) ∧
      rotateDefinitionAction (.Vector [.Number x, .Number y]) [i] sp t =
        .ok ((.Manifold (m.rotate x y 0), d), t.eraseIdx i) ∧
      scaleDefinitionAction (.Vector [.Number x, .Number y]) [i] sp t =
        .ok ((.Manifold (m.scale x y 0), d), t.eraseIdx i) ∧
      mirrorDefinitionAction (.Vector [.Number x, .Number y]) [i] sp t =
        .ok ((.Manifold (m.mirror x y 0), d), t.eraseIdx i)) := by
  refine ⟨?_, ?_, ?_, ?_, ?_, ?_, ?_⟩
  · intro x y sp
    simp [Object.into3dVector, Object.intoVector, Object.asNumber, bind, Except.bind]
  · intro x y z sp
    simp [Object.into3dVector, Object.intoVector, Object.asNumber, bind, Except.bind]
  · intro v sp h2 h3
    match v with
    | [] => simp [Object.into3dVector, Object.intoVector, bind, Except.bind]
    | [a] => simp [Object.into3dVector, Object.intoVector, bind, Except.bind]
    | [a, b] => simp at h2
    | [a, b, c] => simp at h3
    | a :: b :: c :: d :: rest =>
      simp [Object.into3dVector, Object.intoVector, bind, Except.bind]
  · intro o sp
    simp [getVec3FromArguments, acceptOneArgument, bind, Except.bind]
  · intro x y sp t
    simp [cubeDefinitionAction, Object.into3dVector, Object.intoVector,
      Object.asNumber, bind, Except.bind, Except.mapError, GeometryTable.add]
  · intro x y sp oc st
    simp [callBuiltinFunction, getVec3FromArguments, acceptOneArgument,
      Object.into3dVector, Object.intoVector, Object.asNumber, bind,
      Except.bind, Except.mapError, GeometryTable.add]
  · intro x y sp i m d t hlookup
    refine ⟨?_, ?_, ?_, ?_⟩ <;>
      simp [translateDefinitionAction, rotateDefinitionAction,
        scaleDefinitionAction, mirrorDefinitionAction,
        GeometryTable.removeManyIntoUnion, GeometryTable.remove, hlookup,
        Object.into3dVector, Object.intoVector, Object.asNumber, bind,
        Except.bind, Except.mapError]

/-- C9 witness: the amended-free theorem applied at `[3, 4]` against a
one-entry table. -/
theorem C9_builtin_vec3_accepts_2d_vector_witness :
    Object.into3dVector (.Vector [.Number 3, .Number 4]) ⟨0, 0⟩ = .ok (3, 4, 0) ∧
    Object.into3dVector (.Vector [.Number 1]) ⟨0, 0⟩ =
      .error ⟨.IncorrectVectorLength 2 3 1, ⟨0, 0⟩⟩ ∧
    translateDefinitionAction (.Vector [.Number 3, .Number 4]) [1] ⟨0, 0⟩
        ⟨[(1, .Manifold (.cube 1 1 1 false), .Physical)], 2⟩ =
      .ok ((.Manifold ((Manifold.cube 1 1 1 false).translate 3 4 0), .Physical),
        GeometryTable.eraseIdx ⟨[(1, .Manifold (.cube 1 1 1 false), .Physical)], 2⟩ 1) := by
  refine ⟨C9_builtin_vec3_accepts_2d_vector.1 3 4 ⟨0, 0⟩, ?_, ?_⟩
  · have h := C9_builtin_vec3_accepts_2d_vector.2.2.1 [.Number 1] ⟨0, 0⟩
      (by simp) (by simp)
    simpa using h
  · exact (C9_builtin_vec3_accepts_2d_vector.2.2.2.2.2.2 3 4 ⟨0, 0⟩ 1
      (.cube 1 1 1 false) .Physical
      ⟨[(1, .Manifold (.cube 1 1 1 false), .Physical)], 2⟩
      (by simp [GeometryTable.lookup])).1

theorem find_filter_ne {α : Type} (l : List (Nat × α)) (i j : Nat) (h : j ≠ i) :
    (l.filter (fun e => e.1 ≠ i)).find? (fun e => e.1 = j) =
      l.find? (fun e => e.1 = j) := by
  induction l with
  | nil => simp
  | cons e rest ih =>
    by_cases hei : e.1 = i
    · have hej : ¬ (e.1 = j) := by
        rw [hei]
        exact fun hij => h hij.symm
      rw [List.filter_cons, if_neg (by simpa using hei),
        List.find?_cons_of_neg _ (by simpa using hej)]
      exact ih
    · by_cases hej : e.1 = j
      · rw [List.filter_cons, if_pos (by simpa using hei),
          List.find?_cons_of_pos _ (by simpa using hej),
          List.find?_cons_of_pos _ (by simpa using hej)]
      · rw [List.filter_cons, if_pos (by simpa using hei),
          List.find?_cons_of_neg _ (by simpa using hej),
          List.find?_cons_of_neg _ (by simpa using hej)]
        exact ih

theorem GeometryTable.lookup_eraseIdx_ne (t : GeometryTable) (i j : Nat)
    (h : j ≠ i) : (t.eraseIdx i).lookup j = t.lookup j := by
  unfold GeometryTable.lookup GeometryTable.eraseIdx
  simp only []
  rw [find_filter_ne _ i j h]

theorem forall2_mono_mem {α β : Type} {P Q : α → β → Prop} :
    ∀ {l1 : List α} {l2 : List β}, List.Forall₂ P l1 l2 →
    (∀ a b, a ∈ l1 → P a b → Q a b) → List.Forall₂ Q l1 l2 := by
  intro l1 l2 h
  induction h with
  | nil => intro _; exact .nil
  | cons hab htl ih =>
    intro himp
    exact .cons (himp _ _ (by simp) hab)
      (ih fun a b ha hb => himp a b (by simp [ha]) hb)

/-- Removing a list of pairwise-distinct live handles yields exactly
their (entry, disposition) pairs in order. -/
theorem GeometryTable.removeAll_forall2 (is : List Nat) :
    ∀ (pairs : List (GeometryTableEntry × GeometryDisposition)) (t : GeometryTable),
    is.Nodup →
    List.Forall₂ (fun i p => t.lookup i = some p) is pairs →
    t.removeAll is = .ok (pairs, is.foldl GeometryTable.eraseIdx t) := by
  induction is with
  | nil =>
    intro pairs t _ hf
    cases hf
    simp [GeometryTable.removeAll]
  | cons i rest ih =>
    intro pairs t hnodup hf
    cases hf with
    | cons hip htail =>
      rename_i p prest
      have hni : i ∉ rest := (List.nodup_cons.mp hnodup).1
      have htail2 : List.Forall₂
          (fun j q => (t.eraseIdx i).lookup j = some q) rest prest :=
        forall2_mono_mem htail fun j q hj hlq => by
          rw [GeometryTable.lookup_eraseIdx_ne t i j
            (fun hji => hni (hji ▸ hj))]
          exact hlq
      have hrest := ih prest (t.eraseIdx i) (List.nodup_cons.mp hnodup).2 htail2
      simp [GeometryTable.removeAll, GeometryTable.remove, hip, hrest, bind,
        Except.bind]

theorem unionEntries_manifolds (m : Manifold) (ms : List Manifold) (sp : Span) :
    unionEntries (.Manifold m) (ms.map .Manifold) sp =
      .ok (.Manifold (ms.foldl .union m)) := by
  unfold unionEntries
  induction ms generalizing m with
  | nil => simp [Except.map, pure, Except.pure]
  | cons a rest ih => simpa using ih (m.union a)

theorem GeometryDisposition.flatten_const (d : GeometryDisposition)
    (ds : List GeometryDisposition) (sp : Span)
    (hall : ∀ x ∈ ds, x = d) (hne : ds ≠ []) :
    GeometryDisposition.flatten ds sp = .ok d := by
  cases d with
  | Physical =>
    have : ds.all (fun x => x = .Physical) = true := by
      rw [List.all_eq_true]
      intro x hx
      simp [hall x hx]
    simp [GeometryDisposition.flatten, this]
  | Virtual =>
    match ds with
    | [] => exact absurd rfl hne
    | d0 :: drest =>
      have h0 : d0 = .Virtual := hall d0 (by simp)
      have h1 : ((d0 :: drest).all (fun x => x = GeometryDisposition.Physical)) = false := by
        simp [h0]
      have h2 : ((d0 :: drest).all (fun x => x = GeometryDisposition.Virtual)) = true := by
        rw [List.all_eq_true]
        intro x hx
        simp [hall x hx]
      simp [GeometryDisposition.flatten, h1, h2]

/-- `remove_many_into_union` on pairwise-distinct live 3D handles of one
disposition: the left-fold union of their manifolds, with that
disposition, and all handles consumed. -/
theorem GeometryTable.removeManyIntoUnion_manifolds (t : GeometryTable)
    (is : List Nat) (m0 : Manifold) (mrest : List Manifold)
    (d : GeometryDisposition) (sp : Span)
    (hnodup : is.Nodup)
    (hf : List.Forall₂ (fun i m => t.lookup i = some (.Manifold m, d)) is
      (m0 :: mrest)) :
    t.removeManyIntoUnion is sp =
      .ok ((.Manifold (mrest.foldl .union m0), d), is.foldl GeometryTable.eraseIdx t) := by
  match is with
  | [] => cases hf
  | [i] =>
    cases hf with
    | cons hip htail =>
      cases htail
      simp [GeometryTable.removeManyIntoUnion, GeometryTable.remove, hip]
  | i :: j :: irest =>
    have hpairs : List.Forall₂ (fun i p => t.lookup i = some p) (i :: j :: irest)
        ((m0 :: mrest).map (fun m => (GeometryTableEntry.Manifold m, d))) := by
      rw [List.forall₂_map_right_iff]
      exact hf
    have hremove := GeometryTable.removeAll_forall2 (i :: j :: irest) _ t hnodup hpairs
    have hlen := List.Forall₂.length_eq hf
    have hne2 : mrest ≠ [] := by
      intro he
      rw [he] at hlen
      simp at hlen
    have hflat : GeometryDisposition.flatten
        (((m0 :: mrest).map (fun m => (GeometryTableEntry.Manifold m, d))).map
          (fun p => p.2)) sp = .ok d := by
      apply GeometryDisposition.flatten_const
      · intro x hx
        simp only [List.map_map, List.mem_map] at hx
        obtain ⟨m, _, hm⟩ := hx
        exact hm.symm
      · simp
    have hfirsts : ((m0 :: mrest).map (fun m => (GeometryTableEntry.Manifold m, d))).map
        (fun p => p.1) = (m0 :: mrest).map GeometryTableEntry.Manifold := by
      simp
    unfold GeometryTable.removeManyIntoUnion
    simp only [bind, Except.bind, hremove]
    rw [hflat]
    simp only [Except.mapError, hfirsts, List.map_cons]
    have hfirsts2 : List.map (fun (p : GeometryTableEntry × GeometryDisposition) => p.1)
        (mrest.map (fun m => (GeometryTableEntry.Manifold m, d))) =
        mrest.map GeometryTableEntry.Manifold := by simp
    rw [hfirsts2, unionEntries_manifolds]

/-- C2: the built-in `difference` operator (`difference_definition` in
the catalog, `builtin/operators.rs`): zero children is a
`ChildrenExpected` error; one child is returned unchanged (identity);
two or more children yield the first child minus the left-fold union of
the remaining children, keeping the first child's disposition. -/
theorem C2_difference_operator :
    (∀ (sp : Span) (t : GeometryTable),
      differenceDefinitionAction [] sp t =
        .error (.runtime ⟨.ChildrenExpected, sp⟩)) ∧
    (∀ (i : Nat) (e : GeometryTableEntry) (d : GeometryDisposition)
        (sp : Span) (t : GeometryTable), t.lookup i = some (e, d) →
      differenceDefinitionAction [i] sp t = .ok ((e, d), t.eraseIdx i)) ∧
    (∀ (i : Nat) (m : Manifold) (d : GeometryDisposition) (rest : List Nat)
        (s0 : Manifold) (srest : List Manifold) (d2 : GeometryDisposition)
        (sp : Span) (t : GeometryTable),
      (i :: rest).Nodup →
      t.lookup i = some (.Manifold m, d) →
      List.Forall₂ (fun j mj => t.lookup j = some (.Manifold mj, d2)) rest
        (s0 :: srest) →
      differenceDefinitionAction (i :: rest) sp t =
        .ok ((.Manifold (m.difference (srest.foldl .union s0)), d),
          rest.foldl GeometryTable.eraseIdx (t.eraseIdx i))) := by
  refine ⟨?_, ?_, ?_⟩
  · intro sp t
    rfl
  · intro i e d sp t hlookup
    simp [differenceDefinitionAction, GeometryTable.remove, hlookup, bind,
      Except.bind]
  · intro i m d rest s0 srest d2 sp t hnodup hm hf
    match rest, hf with
    | r0 :: rrest, hf =>
      have hni : i ∉ r0 :: rrest := (List.nodup_cons.mp hnodup).1
      have hf2 : List.Forall₂
          (fun j mj => (t.eraseIdx i).lookup j = some (.Manifold mj, d2))
          (r0 :: rrest) (s0 :: srest) :=
        forall2_mono_mem hf fun j mj hj hlq => by
          rw [GeometryTable.lookup_eraseIdx_ne t i j fun hji => hni (hji ▸ hj)]
          exact hlq
      have hmany := GeometryTable.removeManyIntoUnion_manifolds (t.eraseIdx i)
        (r0 :: rrest) s0 srest d2 sp (List.nodup_cons.mp hnodup).2 hf2
      simp [differenceDefinitionAction, GeometryTable.remove, hm, hmany, bind,
        Except.bind]

/-- C2 witness: a three-cube table — zero children error, one-child
identity, and `a − (b ∪ c)` for three children. -/
theorem C2_difference_operator_witness :
    differenceDefinitionAction [] ⟨0, 0⟩
        ⟨[(1, .Manifold (.cube 5 5 5 false), .Physical),
          (2, .Manifold (.cube 2 2 2 false), .Physical),
          (3, .Manifold (.cube 1 1 1 false), .Physical)], 4⟩ =
      .error (.runtime ⟨.ChildrenExpected, ⟨0, 0⟩⟩) ∧
    differenceDefinitionAction [1] ⟨0, 0⟩
        ⟨[(1, .Manifold (.cube 5 5 5 false), .Physical),
          (2, .Manifold (.cube 2 2 2 false), .Physical),
          (3, .Manifold (.cube 1 1 1 false), .Physical)], 4⟩ =
      .ok ((.Manifold (.cube 5 5 5 false), .Physical),
        GeometryTable.eraseIdx
          ⟨[(1, .Manifold (.cube 5 5 5 false), .Physical),
            (2, .Manifold (.cube 2 2 2 false), .Physical),
            (3, .Manifold (.cube 1 1 1 false), .Physical)], 4⟩ 1) ∧
    differenceDefinitionAction [1, 2, 3] ⟨0, 0⟩
        ⟨[(1, .Manifold (.cube 5 5 5 false), .Physical),
          (2, .Manifold (.cube 2 2 2 false), .Physical),
          (3, .Manifold (.cube 1 1 1 false), .Physical)], 4⟩ =
      .ok ((.Manifold ((Manifold.cube 5 5 5 false).difference
          ((Manifold.cube 2 2 2 false).union (.cube 1 1 1 false))), .Physical),
        [2, 3].foldl GeometryTable.eraseIdx
          (GeometryTable.eraseIdx
            ⟨[(1, .Manifold (.cube 5 5 5 false), .Physical),
              (2, .Manifold (.cube 2 2 2 false), .Physical),
              (3, .Manifold (.cube 1 1 1 false), .Physical)], 4⟩ 1)) := by
  refine ⟨C2_difference_operator.1 ⟨0, 0⟩ _,
    C2_difference_operator.2.1 1 (.Manifold (.cube 5 5 5 false)) .Physical ⟨0, 0⟩ _
      (by simp [GeometryTable.lookup]), ?_⟩
  exact C2_difference_operator.2.2 1 (.cube 5 5 5 false) .Physical [2, 3]
    (.cube 2 2 2 false) [.cube 1 1 1 false] .Physical ⟨0, 0⟩ _
    (by simp)
    (by simp [GeometryTable.lookup])
    (.cons (by simp [GeometryTable.lookup])
      (.cons (by simp [GeometryTable.lookup]) .nil))

/-- C10: a union over zero geometry handles is a panic, not a runtime
error — `union_child_geometry` and `remove_many_into_union` both hit
`split_first().unwrap()` on the empty list, and the panic is reachable
from the public `build_model` interface by `union() { 5; };`, whose one
child is a number, leaving no geometry children. -/
theorem C10_empty_union_panics :
    (∀ (sp : Span) (t : GeometryTable),
      unionChildGeometry [] sp t =
        .error (.crash "split_first on empty entry list")) ∧
    (∀ (sp : Span) (t : GeometryTable),
      t.removeManyIntoUnion [] sp =
        .error (.crash "split_first on empty entry list")) ∧
    buildModel "union() \x7b 5; \x7d;".data =
      .diverged (.crash "split_first on empty entry list") := by
  refine ⟨fun sp t => rfl, fun sp t => rfl, ?_⟩
  have htok : tokenize "union() \x7b 5; \x7d;".data =
      ([⟨.Identifier "union".data, ⟨0, 5⟩⟩, ⟨.LParen, ⟨5, 1⟩⟩,
        ⟨.RParen, ⟨6, 1⟩⟩, ⟨.LBrace, ⟨8, 1⟩⟩, ⟨.Number "5".data, ⟨10, 1⟩⟩,
        ⟨.Semicolon, ⟨11, 1⟩⟩, ⟨.RBrace, ⟨13, 1⟩⟩, ⟨.Semicolon, ⟨14, 1⟩⟩],
        []) := by
    simp [tokenize, tokenizeAux, takeIdentChars, takeNumberChars, lookupKeyword,
      rustIsDigit, rustIsAlphabetic, rustIsAlphanumeric, rustIsWhitespace,
      utf8Len, charUtf8Size]
  unfold buildModel
  rw [htok]
  rfl

theorem buildTopLevelManifold_go (l : List (Nat × GeometryTableEntry × GeometryDisposition))
    (acc : Manifold)
    (h : ∀ e ∈ l, e.2.2 = GeometryDisposition.Physical →
      ∃ m, e.2.1 = GeometryTableEntry.Manifold m) :
    l.foldlM
      (fun (result : Manifold) (entry : Nat × GeometryTableEntry × GeometryDisposition) =>
        (if entry.2.2 = GeometryDisposition.Physical then
          match entry.2.1 with
          | GeometryTableEntry.Manifold manifold => Except.ok (result.union manifold)
          | GeometryTableEntry.CrossSection _ =>
            Except.error (Failure.crash "top-level 2D geometry is not yet supported")
        else Except.ok result : Except Failure Manifold))
      acc =
    .ok (((l.filter (fun e => e.2.2 = GeometryDisposition.Physical)).filterMap
      (fun e => match e.2.1 with
        | GeometryTableEntry.Manifold m => some m
        | GeometryTableEntry.CrossSection _ => none)).foldl .union acc) := by
  induction l generalizing acc with
  | nil => simp [pure, Except.pure]
  | cons e rest ih =>
    by_cases hd : e.2.2 = GeometryDisposition.Physical
    · obtain ⟨m, hm⟩ := h e (by simp) hd
      have hrest := ih (acc.union m) fun x hx => h x (by simp [hx])
      simp [List.foldlM_cons, List.filter_cons, hd, hm, hrest, bind, Except.bind]
    · have hrest := ih acc fun x hx => h x (by simp [hx])
      simp [List.foldlM_cons, List.filter_cons, hd, hrest, bind, Except.bind]

/-- C1 (amended): final assembly unions every Physical 3D entry of the
geometry table (in table order, starting from `Manifold::new()`) and
skips Virtual entries — provided no Physical entry is a 2D
cross-section.  A Physical 2D entry is not extruded: it panics (see the
counterexample). -/
theorem C1_final_assembly_amended (t : GeometryTable)
    (h : ∀ e ∈ t.table, e.2.2 = GeometryDisposition.Physical →
      ∃ m, e.2.1 = GeometryTableEntry.Manifold m) :
    buildTopLevelManifold t =
      .ok (((t.table.filter (fun e => e.2.2 = GeometryDisposition.Physical)).filterMap
        (fun e => match e.2.1 with
          | GeometryTableEntry.Manifold m => some m
          | GeometryTableEntry.CrossSection _ => none)).foldl .union .new) :=
  buildTopLevelManifold_go t.table .new h

/-- C1 witness: one Physical cube and one Virtual cylinder — the final
model is the union with the cube alone; the Virtual entry does not
contribute. -/
theorem C1_final_assembly_amended_witness :
    buildTopLevelManifold
        ⟨[(1, .Manifold (.cube 1 2 3 false), .Physical),
          (2, .Manifold (.cylinder 1 1 20 false), .Virtual)], 3⟩ =
      .ok (Manifold.new.union (.cube 1 2 3 false)) := by
  have h := C1_final_assembly_amended
    ⟨[(1, .Manifold (.cube 1 2 3 false), .Physical),
      (2, .Manifold (.cylinder 1 1 20 false), .Virtual)], 3⟩
    (by
      intro e he hp
      simp only [List.mem_cons, List.not_mem_nil, or_false] at he
      rcases he with he | he <;> rw [he] <;> simp_all)
  simpa using h

/-- C1 counterexample: a Physical 2D cross-section at final assembly is
not extruded to a 0.01-high slab — `build_top_level_manifold` panics
("top-level 2D geometry is not yet supported"), both on a direct table
and end-to-end from `build_model` on `square([1,1]);`. -/
theorem C1_final_assembly_counterexample :
    buildTopLevelManifold ⟨[(1, .CrossSection (.square 1 1 false), .Physical)], 2⟩ =
      .error (.crash "top-level 2D geometry is not yet supported") ∧
    buildModel "square([1,1]);".data =
      .diverged (.crash "top-level 2D geometry is not yet supported") := by
  constructor
  · rfl
  · have htok : tokenize "square([1,1]);".data =
        ([⟨.Identifier "square".data, ⟨0, 6⟩⟩, ⟨.LParen, ⟨6, 1⟩⟩,
          ⟨.LBracket, ⟨7, 1⟩⟩, ⟨.Number "1".data, ⟨8, 1⟩⟩, ⟨.Comma, ⟨9, 1⟩⟩,
          ⟨.Number "1".data, ⟨10, 1⟩⟩, ⟨.RBracket, ⟨11, 1⟩⟩,
          ⟨.RParen, ⟨12, 1⟩⟩, ⟨.Semicolon, ⟨13, 1⟩⟩], []) := by
      simp [tokenize, tokenizeAux, takeIdentChars, takeNumberChars, lookupKeyword,
        rustIsDigit, rustIsAlphabetic, rustIsAlphanumeric, rustIsWhitespace,
        utf8Len, charUtf8Size]
    unfold buildModel
    rw [htok]
    rfl

/-- C5 (amended): `it` resolves per the context's `it` state — Unset
(outside operator argument position, including inside children) is
`ItReferenceInvalid`, Unsupported is `ItReferenceUnsupportedNotOneChild`,
Present yields the handle.  The Present state is set only when the
children produced exactly one `Object::Manifold`-variant result; an
`Object::CrossSection` child result is filtered out like a number, so it
does not count as a geometry child (see the counterexample).  Concretely:
a single 3D child lets `it` in arguments resolve (the `f(it)` program
runs to completion), two 3D children give
`ItReferenceUnsupportedNotOneChild`, and a top-level `it;` gives
`ItReferenceInvalid`. -/
theorem C5_it_reference_amended :
    (∀ (fuel : Nat) (sp : Span) (ctx : ExecutionContext) (st : InterpState),
      ctx.itManifold = .None →
      interpret (fuel + 1) (.mk .ItReference sp) ctx st =
        .error (.runtime ⟨.ItReferenceInvalid, sp⟩)) ∧
    (∀ (fuel : Nat) (sp : Span) (ctx : ExecutionContext) (st : InterpState),
      ctx.itManifold = .UnsupportedNotOneChild →
      interpret (fuel + 1) (.mk .ItReference sp) ctx st =
        .error (.runtime ⟨.ItReferenceUnsupportedNotOneChild, sp⟩)) ∧
    (∀ (fuel : Nat) (sp : Span) (idx : Nat) (ctx : ExecutionContext)
        (st : InterpState), ctx.itManifold = .Some idx →
      interpret (fuel + 1) (.mk .ItReference sp) ctx st = .ok (.Manifold idx, st)) ∧
    interpretTopLevel 20 [operatorFDefNode, fOfItNode] GeometryTable.new =
      .ok ⟨[(5, .Manifold (.cube 1 1 1 false), .Physical)], 6⟩ ∧
    interpretTopLevel 20 [translateItTwoCubes] GeometryTable.new =
      .error (.runtime ⟨.ItReferenceUnsupportedNotOneChild, ⟨3, 3⟩⟩) ∧
    interpretTopLevel 20 [.mk .ItReference sp0] GeometryTable.new =
      .error (.runtime ⟨.ItReferenceInvalid, sp0⟩) := by
  refine ⟨?_, ?_, ?_, ?_, ?_, ?_⟩
  · intro fuel sp ctx st h
    simp [interpret, Node.kind, Node.span, h]
  · intro fuel sp ctx st h
    simp [interpret, Node.kind, Node.span, h]
  · intro fuel sp idx ctx st h
    simp [interpret, Node.kind, Node.span, h]
  · rfl
  · rfl
  · rfl

/-- C5 witness: the amended theorem applied with `it` bound to handle 7. -/
theorem C5_it_reference_amended_witness :
    interpret 1 (.mk .ItReference ⟨0, 0⟩) ⟨.Some 7, none, 0, []⟩
        ⟨GeometryTable.new, ScopeArena.newRoot⟩ =
      .ok (.Manifold 7, ⟨GeometryTable.new, ScopeArena.newRoot⟩) :=
  C5_it_reference_amended.2.2.1 0 ⟨0, 0⟩ 7 ⟨.Some 7, none, 0, []⟩
    ⟨GeometryTable.new, ScopeArena.newRoot⟩ rfl

/-- C5 counterexample: the for-loop child of
`translate(it) \x7b for (i = [1]) \x7b square([1,1]); \x7d \x7d`
evaluates to exactly one geometry-typed result (an
`Object::CrossSection`), yet `it` in the argument position fails with
`ItReferenceUnsupportedNotOneChild` instead of yielding that child's
handle, because the interpreter's child filter keeps only the
`Object::Manifold` variant. -/
theorem C5_it_reference_counterexample :
    (interpret 20 forSquareNode ExecutionContext.new
      ⟨GeometryTable.new, ScopeArena.newRoot⟩).toOption.map Prod.fst =
      some (.CrossSection 2) ∧
    interpretTopLevel 20 [translateItOverCrossSection] GeometryTable.new =
      .error (.runtime ⟨.ItReferenceUnsupportedNotOneChild, ⟨1, 1⟩⟩) := by
  exact ⟨rfl, rfl⟩

theorem interpretTopLevelGo_first_error (fuel : Nat) (pre : List Node) :
    ∀ (n : Node) (post : List Node) (ctx : ExecutionContext)
      (st st2 : InterpState) (f : Failure),
    interpretTopLevelGo fuel pre ctx st = .ok st2 →
    interpret fuel n ctx st2 = .error f →
    interpretTopLevelGo fuel (pre ++ n :: post) ctx st = .error f := by
  induction pre with
  | nil =>
    intro n post ctx st st2 f hok herr
    have hst : st = st2 := by
      simpa [interpretTopLevelGo] using hok
    subst hst
    simp [interpretTopLevelGo, herr, bind, Except.bind]
  | cons p rest ih =>
    intro n post ctx st st2 f hok herr
    match hp : interpret fuel p ctx st with
    | .error e =>
      rw [show interpretTopLevelGo fuel (p :: rest) ctx st =
        (do
          let r ← interpret fuel p ctx st
          interpretTopLevelGo fuel rest ctx r.2) from rfl, hp] at hok
      simp [bind, Except.bind] at hok
    | .ok (o, st3) =>
      have hok2 : interpretTopLevelGo fuel rest ctx st3 = .ok st2 := by
        rw [show interpretTopLevelGo fuel (p :: rest) ctx st =
          (do
            let r ← interpret fuel p ctx st
            interpretTopLevelGo fuel rest ctx r.2) from rfl, hp] at hok
        simpa [bind, Except.bind] using hok
      have htail := ih n post ctx st3 st2 f hok2 herr
      rw [List.cons_append,
        show interpretTopLevelGo fuel (p :: (rest ++ n :: post)) ctx st =
        (do
          let r ← interpret fuel p ctx st
          interpretTopLevelGo fuel (rest ++ n :: post) ctx r.2) from rfl, hp]
      simpa [bind, Except.bind] using htail

/-- C3: `build_model` error staging — (i) if tokenization produced any
errors (they are accumulated over the whole input, not cut at the
first), `build_model` returns exactly that list and neither the parser
errors nor interpretation decide the result; (ii) if tokenization is
clean and parsing produced any errors, `build_model` returns exactly the
parser's accumulated error list and interpretation does not run;
(iii) tokenization of `£ $` accumulates both bad characters; (iv)
`build_model` on `; ;` returns both parse errors together; (v)
interpretation stops at the first runtime error: whatever statements
follow a failing one, the result is that first failure. -/
theorem C3_pipeline_error_staging :
    (∀ source : List Char, (tokenize source).2 ≠ [] →
      buildModel source = .err (.Tokenize (tokenize source).2)) ∧
    (∀ source : List Char, (tokenize source).2 = [] →
      (parseStatements (parserFuel (tokenize source).1)
        ⟨(tokenize source).1, [], utf8Len source⟩).2.errors ≠ [] →
      buildModel source = .err (.Parser
        (parseStatements (parserFuel (tokenize source).1)
          ⟨(tokenize source).1, [], utf8Len source⟩).2.errors)) ∧
    tokenize "£ $".data =
      ([], [⟨.UnexpectedChar '£', ⟨0, 1⟩⟩, ⟨.UnexpectedChar '$', ⟨2, 1⟩⟩]) ∧
    buildModel "; ;".data =
      .err (.Parser [⟨.UnexpectedToken .Semicolon, ⟨0, 1⟩⟩,
        ⟨.UnexpectedToken .Semicolon, ⟨2, 1⟩⟩]) ∧
    (∀ (fuel : Nat) (pre : List Node) (n : Node) (post : List Node)
        (ctx : ExecutionContext) (st st2 : InterpState) (f : Failure),
      interpretTopLevelGo fuel pre ctx st = .ok st2 →
      interpret fuel n ctx st2 = .error f →
      interpretTopLevelGo fuel (pre ++ n :: post) ctx st = .error f) := by
  refine ⟨?_, ?_, ?_, ?_, fun fuel pre => interpretTopLevelGo_first_error fuel pre⟩
  · intro source h
    simp [buildModel, h]
  · intro source h1 h2
    simp [buildModel, h1, h2]
  · simp [tokenize, tokenizeAux, takeIdentChars, takeNumberChars, lookupKeyword,
      rustIsDigit, rustIsAlphabetic, rustIsAlphanumeric, rustIsWhitespace,
      utf8Len, charUtf8Size]
  · have htok : tokenize "; ;".data =
        ([⟨.Semicolon, ⟨0, 1⟩⟩, ⟨.Semicolon, ⟨2, 1⟩⟩], []) := by
      simp [tokenize, tokenizeAux, takeIdentChars, takeNumberChars, lookupKeyword,
        rustIsDigit, rustIsAlphabetic, rustIsAlphanumeric, rustIsWhitespace,
        utf8Len, charUtf8Size]
    unfold buildModel
    rw [htok]
    rfl

/-- C3 witness: the staging conjuncts applied at concrete inputs — the
two-bad-character source takes the tokenize-error exit, and a run whose
second statement is a failing `it;` stops with that first runtime
error. -/
theorem C3_pipeline_error_staging_witness :
    buildModel "£ $".data = .err (.Tokenize
      [⟨.UnexpectedChar '£', ⟨0, 1⟩⟩, ⟨.UnexpectedChar '$', ⟨2, 1⟩⟩]) ∧
    interpretTopLevelGo 20 [cubeCallNode, .mk .ItReference sp0, cubeCallNode]
        ExecutionContext.new ⟨GeometryTable.new, ScopeArena.newRoot⟩ =
      .error (.runtime ⟨.ItReferenceInvalid, sp0⟩) := by
  constructor
  · have h := C3_pipeline_error_staging.1 "£ $".data
      (by rw [C3_pipeline_error_staging.2.2.1]; simp)
    rw [C3_pipeline_error_staging.2.2.1] at h
    exact h
  · exact C3_pipeline_error_staging.2.2.2.2 20 [cubeCallNode]
      (.mk .ItReference sp0) [cubeCallNode] ExecutionContext.new
      ⟨GeometryTable.new, ScopeArena.newRoot⟩
      ⟨⟨[(1, .Manifold (.cube 1 1 1 false), .Physical)], 2⟩, ScopeArena.newRoot⟩
      (.runtime ⟨.ItReferenceInvalid, sp0⟩) rfl rfl

/-- C7: the snapshot's `lookup_keyword` recognizes only `it` and
`operator`; the other six words of the claimed keyword set — which
`parse.rs` in the same crate matches as dedicated keyword tokens — are
lexed as plain identifiers (shown for `module` and `for`; ordinary
identifiers like `foo_1` also lex as identifiers). -/
theorem C7_keyword_lookup_gap :
    lookupKeyword "it".data = some .KwIt ∧
    lookupKeyword "operator".data = some .KwOperator ∧
    lookupKeyword "module".data = none ∧
    lookupKeyword "true".data = none ∧
    lookupKeyword "false".data = none ∧
    lookupKeyword "for".data = none ∧
    lookupKeyword "if".data = none ∧
    lookupKeyword "else".data = none ∧
    tokenize "module".data = ([⟨.Identifier "module".data, ⟨0, 6⟩⟩], []) ∧
    tokenize "for".data = ([⟨.Identifier "for".data, ⟨0, 3⟩⟩], []) ∧
    tokenize "foo_1".data = ([⟨.Identifier "foo_1".data, ⟨0, 5⟩⟩], []) ∧
    tokenize "it operator".data =
      ([⟨.KwIt, ⟨0, 2⟩⟩, ⟨.KwOperator, ⟨3, 8⟩⟩], []) := by
  refine ⟨by simp [lookupKeyword], by simp [lookupKeyword], by simp [lookupKeyword],
    by simp [lookupKeyword], by simp [lookupKeyword], by simp [lookupKeyword],
    by simp [lookupKeyword], by simp [lookupKeyword], ?_, ?_, ?_, ?_⟩ <;>
    simp [tokenize, tokenizeAux, takeIdentChars, takeNumberChars, lookupKeyword,
      rustIsDigit, rustIsAlphabetic, rustIsAlphanumeric, rustIsWhitespace,
      utf8Len, charUtf8Size]

theorem takeNumberChars_append (cs : List Char) (b : Bool) :
    (takeNumberChars cs b).1 ++ (takeNumberChars cs b).2 = cs := by
  induction cs generalizing b with
  | nil => simp [takeNumberChars]
  | cons c rest ih =>
    simp only [takeNumberChars]
    split
    · simpa using ih b
    · split
      · rename_i hdot
        have hc : c = '.' := by
          have := hdot
          simp only [Bool.and_eq_true, beq_iff_eq] at this
          exact this.2
        simpa [hc] using ih true
      · simp

theorem takeIdentChars_append (cs : List Char) :
    (takeIdentChars cs).1 ++ (takeIdentChars cs).2 = cs := by
  induction cs with
  | nil => simp [takeIdentChars]
  | cons c rest ih =>
    simp only [takeIdentChars]
    split
    · simpa using ih
    · simp

theorem skipCommentChars_spec (cs : List Char) :
    (skipCommentChars cs).1 ≤ cs.length ∧
    cs.drop (skipCommentChars cs).1 = (skipCommentChars cs).2 := by
  induction cs with
  | nil => simp [skipCommentChars]
  | cons c rest ih =>
    simp only [skipCommentChars]
    split
    · simp
    · refine ⟨by simpa using Nat.succ_le_succ ih.1, ?_⟩
      simpa using ih.2

theorem lookupKeyword_text (buffer : List Char) :
    tokenTextChars
      (match lookupKeyword buffer with
        | some kw => kw
        | none => TokenKind.Identifier buffer) = buffer := by
  unfold lookupKeyword
  by_cases h1 : buffer = "it".data
  · simp [h1, tokenTextChars]
  · by_cases h2 : buffer = "operator".data
    · simp [h1, h2, tokenTextChars]
    · simp [h1, h2, tokenTextChars]

theorem token_text_transport (n : Nat)
    (ih : ∀ (suf : List Char), suf.length ≤ n →
      ∀ (pre : List Char), ∀ t ∈ (tokenizeAux suf pre.length).1,
        ((pre ++ suf).drop t.span.start).take (tokenTextChars t.kind).length =
          tokenTextChars t.kind ∧
        t.span.length = utf8Len (tokenTextChars t.kind))
    (consumed suf2 pre : List Char) (t : Token)
    (hlen2 : suf2.length ≤ n)
    (hmem : t ∈ (tokenizeAux suf2 (pre.length + consumed.length)).1) :
    (((pre ++ consumed) ++ suf2).drop t.span.start).take
        (tokenTextChars t.kind).length = tokenTextChars t.kind ∧
    t.span.length = utf8Len (tokenTextChars t.kind) := by
  have hpl : (pre ++ consumed).length = pre.length + consumed.length := by simp
  exact ih suf2 hlen2 (pre ++ consumed) t (by rw [hpl]; exact hmem)

theorem tokenizeAux_token_text :
    ∀ (n : Nat) (suf : List Char), suf.length ≤ n →
    ∀ (pre : List Char), ∀ t ∈ (tokenizeAux suf pre.length).1,
      ((pre ++ suf).drop t.span.start).take (tokenTextChars t.kind).length =
        tokenTextChars t.kind ∧
      t.span.length = utf8Len (tokenTextChars t.kind) := by
  intro n
  induction n with
  | zero =>
    intro suf hlen pre t ht
    match suf with
    | [] =>
      have h0 : tokenizeAux [] pre.length = ([], []) := by
        rw [tokenizeAux.eq_def]
      rw [h0] at ht
      simp at ht
  | succ n ih =>
    intro suf hlen pre t ht
    match suf with
    | [] =>
      have h0 : tokenizeAux [] pre.length = ([], []) := by
        rw [tokenizeAux.eq_def]
      rw [h0] at ht
      simp at ht
    | c :: rest =>
      have hrest : rest.length ≤ n := by
        simp at hlen
        omega
      rw [tokenizeAux.eq_def] at ht
      split at ht
      case h_1 heq => simp at heq
      case h_2 c2 rest2 heq =>
        rw [List.cons.injEq] at heq
        obtain ⟨hc1, hc2⟩ := heq
        subst hc1
        subst hc2
        by_cases h1 : rustIsDigit c = true
        · rw [if_pos h1] at ht
          obtain ⟨A, B, hAB⟩ : ∃ A B, takeNumberChars rest false = (A, B) := ⟨_, _, rfl⟩
          have hsplit := takeNumberChars_append rest false
          rw [hAB] at hsplit
          simp only [hAB, List.mem_cons] at ht
          rcases ht with rfl | hmem
          · constructor
            · show ((pre ++ c :: rest).drop pre.length).take (c :: A).length = c :: A
              rw [List.drop_left, ← hsplit, List.length_cons, List.take_succ_cons,
                List.take_left]
            · rfl
          · have hlen2 : B.length ≤ n := by
              have h := takeNumberChars_rest_length_le rest false
              rw [hAB] at h
              exact le_trans h hrest
            have := token_text_transport n ih (c :: A) B pre t hlen2 hmem
            rw [List.append_assoc, List.cons_append, hsplit] at this
            exact this
        · rw [if_neg h1] at ht
          by_cases h2 : (rustIsAlphabetic c || c == '_') = true
          · rw [if_pos h2] at ht
            obtain ⟨A, B, hAB⟩ : ∃ A B, takeIdentChars rest = (A, B) := ⟨_, _, rfl⟩
            have hsplit := takeIdentChars_append rest
            rw [hAB] at hsplit
            simp only [hAB] at ht
            cases hkw : lookupKeyword (c :: A) with
            | some kw =>
              simp only [hkw, List.mem_cons] at ht
              have htext0 := lookupKeyword_text (c :: A)
              rw [hkw] at htext0
              have htext : tokenTextChars kw = c :: A := htext0
              rcases ht with rfl | hmem
              · constructor
                · show ((pre ++ c :: rest).drop pre.length).take
                      (tokenTextChars kw).length = tokenTextChars kw
                  rw [htext, List.drop_left, ← hsplit, List.length_cons,
                    List.take_succ_cons, List.take_left]
                · show utf8Len (c :: A) = utf8Len (tokenTextChars kw)
                  rw [htext]
              · have hlen2 : B.length ≤ n := by
                  have h := takeIdentChars_rest_length_le rest
                  rw [hAB] at h
                  exact le_trans h hrest
                have := token_text_transport n ih (c :: A) B pre t hlen2 hmem
                rw [List.append_assoc, List.cons_append, hsplit] at this
                exact this
            | none =>
              simp only [hkw, List.mem_cons] at ht
              rcases ht with rfl | hmem
              · constructor
                · show ((pre ++ c :: rest).drop pre.length).take (c :: A).length = c :: A
                  rw [List.drop_left, ← hsplit, List.length_cons, List.take_succ_cons,
                    List.take_left]
                · rfl
              · have hlen2 : B.length ≤ n := by
                  have h := takeIdentChars_rest_length_le rest
                  rw [hAB] at h
                  exact le_trans h hrest
                have := token_text_transport n ih (c :: A) B pre t hlen2 hmem
                rw [List.append_assoc, List.cons_append, hsplit] at this
                exact this
          · rw [if_neg h2] at ht
            by_cases h3 : (c == '/' && rest.head? == some '/') = true
            · rw [if_pos h3] at ht
              obtain ⟨k, B, hkB⟩ : ∃ k B, skipCommentChars rest = (k, B) := ⟨_, _, rfl⟩
              have hk := (skipCommentChars_spec rest).1
              have hdrop := (skipCommentChars_spec rest).2
              simp only [hkB] at hk hdrop ht
              have hlen2 : B.length ≤ n := by
                rw [← hdrop]
                simp only [List.length_drop]
                omega
              have hmem2 : t ∈ (tokenizeAux B (pre.length + (c :: rest.take k).length)).1 := by
                have hlc : (c :: rest.take k).length = 1 + k := by
                  simp only [List.length_cons, List.length_take]
                  omega
                rw [hlc, show pre.length + (1 + k) = pre.length + 1 + k from by omega]
                exact ht
              have := token_text_transport n ih (c :: rest.take k) B pre t hlen2 hmem2
              rw [List.append_assoc, List.cons_append] at this
              rw [show rest.take k ++ B = rest from by
                conv_rhs => rw [← List.take_append_drop k rest]
                rw [hdrop]] at this
              exact this
            · rw [if_neg h3] at ht
              by_cases h4 : (c == '(') = true
              · rw [if_pos h4] at ht
                simp only [List.mem_cons] at ht
                rcases ht with rfl | hmem
                · have hceq := eq_of_beq h4
                  subst hceq
                  constructor
                  · show ((pre ++ '(' :: rest).drop pre.length).take 1 = ['(']
                    rw [List.drop_left]
                    rfl
                  · rfl
                · have := token_text_transport n ih [c] rest pre t hrest hmem
                  rw [List.append_assoc, List.singleton_append] at this
                  exact this
              · rw [if_neg h4] at ht
                by_cases h5 : (c == ')') = true
                · rw [if_pos h5] at ht
                  simp only [List.mem_cons] at ht
                  rcases ht with rfl | hmem
                  · have hceq := eq_of_beq h5
                    subst hceq
                    constructor
                    · show ((pre ++ ')' :: rest).drop pre.length).take 1 = [')']
                      rw [List.drop_left]
                      rfl
                    · rfl
                  · have := token_text_transport n ih [c] rest pre t hrest hmem
                    rw [List.append_assoc, List.singleton_append] at this
                    exact this
                · rw [if_neg h5] at ht
                  by_cases h6 : (c == '\x7b') = true
                  · rw [if_pos h6] at ht
                    simp only [List.mem_cons] at ht
                    rcases ht with rfl | hmem
                    · have hceq := eq_of_beq h6
                      subst hceq
                      constructor
                      · show ((pre ++ '\x7b' :: rest).drop pre.length).take 1 = ['\x7b']
                        rw [List.drop_left]
                        rfl
                      · rfl
                    · have := token_text_transport n ih [c] rest pre t hrest hmem
                      rw [List.append_assoc, List.singleton_append] at this
                      exact this
                  · rw [if_neg h6] at ht
                    by_cases h7 : (c == '\x7d') = true
                    · rw [if_pos h7] at ht
                      simp only [List.mem_cons] at ht
                      rcases ht with rfl | hmem
                      · have hceq := eq_of_beq h7
                        subst hceq
                        constructor
                        · show ((pre ++ '\x7d' :: rest).drop pre.length).take 1 = ['\x7d']
                          rw [List.drop_left]
                          rfl
                        · rfl
                      · have := token_text_transport n ih [c] rest pre t hrest hmem
                        rw [List.append_assoc, List.singleton_append] at this
                        exact this
                    · rw [if_neg h7] at ht
                      by_cases h8 : (c == '[') = true
                      · rw [if_pos h8] at ht
                        simp only [List.mem_cons] at ht
                        rcases ht with rfl | hmem
                        · have hceq := eq_of_beq h8
                          subst hceq
                          constructor
                          · show ((pre ++ '[' :: rest).drop pre.length).take 1 = ['[']
                            rw [List.drop_left]
                            rfl
                          · rfl
                        · have := token_text_transport n ih [c] rest pre t hrest hmem
                          rw [List.append_assoc, List.singleton_append] at this
                          exact this
                      · rw [if_neg h8] at ht
                        by_cases h9 : (c == ']') = true
                        · rw [if_pos h9] at ht
                          simp only [List.mem_cons] at ht
                          rcases ht with rfl | hmem
                          · have hceq := eq_of_beq h9
                            subst hceq
                            constructor
                            · show ((pre ++ ']' :: rest).drop pre.length).take 1 = [']']
                              rw [List.drop_left]
                              rfl
                            · rfl
                          · have := token_text_transport n ih [c] rest pre t hrest hmem
                            rw [List.append_assoc, List.singleton_append] at this
                            exact this
                        · rw [if_neg h9] at ht
                          by_cases h10 : (c == ',') = true
                          · rw [if_pos h10] at ht
                            simp only [List.mem_cons] at ht
                            rcases ht with rfl | hmem
                            · have hceq := eq_of_beq h10
                              subst hceq
                              constructor
                              · show ((pre ++ ',' :: rest).drop pre.length).take 1 = [',']
                                rw [List.drop_left]
                                rfl
                              · rfl
                            · have := token_text_transport n ih [c] rest pre t hrest hmem
                              rw [List.append_assoc, List.singleton_append] at this
                              exact this
                          · rw [if_neg h10] at ht
                            by_cases h11 : (c == ';') = true
                            · rw [if_pos h11] at ht
                              simp only [List.mem_cons] at ht
                              rcases ht with rfl | hmem
                              · have hceq := eq_of_beq h11
                                subst hceq
                                constructor
                                · show ((pre ++ ';' :: rest).drop pre.length).take 1 = [';']
                                  rw [List.drop_left]
                                  rfl
                                · rfl
                              · have := token_text_transport n ih [c] rest pre t hrest hmem
                                rw [List.append_assoc, List.singleton_append] at this
                                exact this
                            · rw [if_neg h11] at ht
                              by_cases h12 : (c == '=') = true
                              · rw [if_pos h12] at ht
                                simp only [List.mem_cons] at ht
                                rcases ht with rfl | hmem
                                · have hceq := eq_of_beq h12
                                  subst hceq
                                  constructor
                                  · show ((pre ++ '=' :: rest).drop pre.length).take 1 = ['=']
                                    rw [List.drop_left]
                                    rfl
                                  · rfl
                                · have := token_text_transport n ih [c] rest pre t hrest hmem
                                  rw [List.append_assoc, List.singleton_append] at this
                                  exact this
                              · rw [if_neg h12] at ht
                                by_cases h13 : (c == '.') = true
                                · rw [if_pos h13] at ht
                                  simp only [List.mem_cons] at ht
                                  rcases ht with rfl | hmem
                                  · have hceq := eq_of_beq h13
                                    subst hceq
                                    constructor
                                    · show ((pre ++ '.' :: rest).drop pre.length).take 1 = ['.']
                                      rw [List.drop_left]
                                      rfl
                                    · rfl
                                  · have := token_text_transport n ih [c] rest pre t hrest hmem
                                    rw [List.append_assoc, List.singleton_append] at this
                                    exact this
                                · rw [if_neg h13] at ht
                                  by_cases h14 : (c == '+') = true
                                  · rw [if_pos h14] at ht
                                    simp only [List.mem_cons] at ht
                                    rcases ht with rfl | hmem
                                    · have hceq := eq_of_beq h14
                                      subst hceq
                                      constructor
                                      · show ((pre ++ '+' :: rest).drop pre.length).take 1 = ['+']
                                        rw [List.drop_left]
                                        rfl
                                      · rfl
                                    · have := token_text_transport n ih [c] rest pre t hrest hmem
                                      rw [List.append_assoc, List.singleton_append] at this
                                      exact this
                                  · rw [if_neg h14] at ht
                                    by_cases h15 : (c == '-') = true
                                    · rw [if_pos h15] at ht
                                      simp only [List.mem_cons] at ht
                                      rcases ht with rfl | hmem
                                      · have hceq := eq_of_beq h15
                                        subst hceq
                                        constructor
                                        · show ((pre ++ '-' :: rest).drop pre.length).take 1 = ['-']
                                          rw [List.drop_left]
                                          rfl
                                        · rfl
                                      · have := token_text_transport n ih [c] rest pre t hrest hmem
                                        rw [List.append_assoc, List.singleton_append] at this
                                        exact this
                                    · rw [if_neg h15] at ht
                                      by_cases h16 : (c == '/') = true
                                      · rw [if_pos h16] at ht
                                        simp only [List.mem_cons] at ht
                                        rcases ht with rfl | hmem
                                        · have hceq := eq_of_beq h16
                                          subst hceq
                                          constructor
                                          · show ((pre ++ '/' :: rest).drop pre.length).take 1 = ['/']
                                            rw [List.drop_left]
                                            rfl
                                          · rfl
                                        · have := token_text_transport n ih [c] rest pre t hrest hmem
                                          rw [List.append_assoc, List.singleton_append] at this
                                          exact this
                                      · rw [if_neg h16] at ht
                                        by_cases h17 : (c == '*') = true
                                        · rw [if_pos h17] at ht
                                          simp only [List.mem_cons] at ht
                                          rcases ht with rfl | hmem
                                          · have hceq := eq_of_beq h17
                                            subst hceq
                                            constructor
                                            · show ((pre ++ '*' :: rest).drop pre.length).take 1 = ['*']
                                              rw [List.drop_left]
                                              rfl
                                            · rfl
                                          · have := token_text_transport n ih [c] rest pre t hrest hmem
                                            rw [List.append_assoc, List.singleton_append] at this
                                            exact this
                                        · rw [if_neg h17] at ht
                                          by_cases h18 : rustIsWhitespace c = true
                                          · rw [if_pos h18] at ht
                                            have := token_text_transport n ih [c] rest pre t hrest ht
                                            rw [List.append_assoc, List.singleton_append] at this
                                            exact this
                                          · rw [if_neg h18] at ht
                                            have := token_text_transport n ih [c] rest pre t hrest ht
                                            rw [List.append_assoc, List.singleton_append] at this
                                            exact this

theorem toBytes_cons (c : Char) (cs : List Char) :
    toBytes (c :: cs) = utf8Bytes c ++ toBytes cs := rfl

theorem toBytes_ascii (cs : List Char) (h : ∀ c ∈ cs, c.toNat < 128) :
    toBytes cs = cs.map Char.toNat := by
  induction cs with
  | nil => rfl
  | cons c rest ih =>
    rw [toBytes_cons, ih (fun x hx => h x (List.mem_cons_of_mem c hx))]
    have hc : c.toNat < 128 := h c (List.mem_cons_self c rest)
    show utf8Bytes c ++ rest.map Char.toNat = c.toNat :: rest.map Char.toNat
    unfold utf8Bytes
    rw [if_pos hc]
    rfl

theorem utf8Len_ascii (cs : List Char) (h : ∀ c ∈ cs, c.toNat < 128) :
    utf8Len cs = cs.length := by
  induction cs with
  | nil => rfl
  | cons c rest ih =>
    have hc : c.toNat < 128 := h c (List.mem_cons_self c rest)
    show charUtf8Size c + utf8Len rest = rest.length + 1
    rw [ih (fun x hx => h x (List.mem_cons_of_mem c hx))]
    unfold charUtf8Size
    rw [if_pos hc]
    omega

/-- C8 (amended): for an all-ASCII source, every token produced by
`tokenize` satisfies the lex round-trip: the token's span, read as a
byte offset and byte length into the UTF-8 bytes of the source, selects
exactly the UTF-8 bytes of the token's textual form.  (On non-ASCII
sources the round-trip fails, because the lexer stores the char index
as the span start but the UTF-8 byte length as the span length; see the
counterexample.) -/
theorem C8_span_roundtrip_amended (source : List Char)
    (hascii : ∀ c ∈ source, c.toNat < 128) :
    ∀ t ∈ (tokenize source).1,
      byteSlice source t.span.start t.span.length =
        toBytes (tokenTextChars t.kind) := by
  intro t ht
  have hmain := tokenizeAux_token_text source.length source le_rfl [] t
    (by simpa [tokenize] using ht)
  simp only [List.nil_append] at hmain
  obtain ⟨htext, hlen⟩ := hmain
  have htsub : ∀ ch ∈ tokenTextChars t.kind, ch.toNat < 128 := by
    intro ch hch
    apply hascii
    rw [← htext] at hch
    exact List.mem_of_mem_drop (List.mem_of_mem_take hch)
  have hlen2 : utf8Len (tokenTextChars t.kind) = (tokenTextChars t.kind).length :=
    utf8Len_ascii _ htsub
  unfold byteSlice
  rw [toBytes_ascii source hascii, hlen, hlen2]
  rw [← List.map_drop, ← List.map_take, htext, toBytes_ascii _ htsub]

theorem C8_span_roundtrip_amended_witness :
    (∀ c ∈ "ab;".data, c.toNat < 128) ∧
    (∀ t ∈ (tokenize "ab;".data).1,
      byteSlice "ab;".data t.span.start t.span.length =
        toBytes (tokenTextChars t.kind)) :=
  ⟨by decide, C8_span_roundtrip_amended "ab;".data (by decide)⟩

/-- C8 counterexample: on the source `£;` (pound sign, then semicolon)
the semicolon token carries span start 1 (its char index) and length 1,
but byte 1 of the UTF-8 source is the second byte of the pound sign
(163), not the semicolon byte (59): the byte-interpreted slice does not
equal the token text, refuting the claim for non-ASCII sources. -/
theorem C8_span_roundtrip_counterexample :
    (⟨TokenKind.Semicolon, ⟨1, 1⟩⟩ : Token) ∈ (tokenize "£;".data).1 ∧
    byteSlice "£;".data 1 1 = [163] ∧
    toBytes (tokenTextChars TokenKind.Semicolon) = [59] ∧
    byteSlice "£;".data 1 1 ≠ toBytes (tokenTextChars TokenKind.Semicolon) := by
  refine ⟨?_, by decide, by decide, by decide⟩
  have htok : (tokenize "£;".data).1 = [⟨TokenKind.Semicolon, ⟨1, 1⟩⟩] := by
    simp [tokenize, tokenizeAux, takeIdentChars, takeNumberChars, lookupKeyword,
      rustIsDigit, rustIsAlphabetic, rustIsAlphanumeric, rustIsWhitespace,
      utf8Len, charUtf8Size]
  rw [htok]
  exact List.mem_cons_self _ _

end Yascad
